import Mathlib

/-!
The packet-buffer pool `openqueue.c` of the OpenWSN stack.

A shallow embedding of `src/openqueue.c`.

* The global `openqueue_vars.queue` is a `List OpenQueueEntry_t`; a well-formed
  pool has `QUEUELENGTH` records.  Every function takes the pool and returns
  the new pool next to its C return value.
* A pointer `OpenQueueEntry_t*` is an `EntryPtr`: `NULL`, the address of slot
  `i` of the queue, or an address outside the queue.
* Constants, types and helpers that come from headers outside `openqueue.c`
  (`opendefs.h`, `packetfunctions.h`, `IEEE802154_security.h`) are the fields
  of `Defs`.  `ieee154e_isSynch()` is the Boolean argument `synch`.
* `uint8_t` values are `Nat`; where the C code can wrap, `% 256` is explicit.
* The interrupt macros do not touch the pool and are left out.
-/

namespace OpenQueue

/-! ## Data model -/

/-- The `open_addr_t` of `opendefs.h`: an address type tag and the address bytes. -/
structure open_addr_t where
  type : Nat
  addr : List Nat
deriving DecidableEq, Repr

/-- The fields of `OpenQueueEntry_t` that `openqueue.c` reads or writes, and the
packet bytes.  `payload` is the offset of the payload pointer inside `packet`. -/
structure OpenQueueEntry_t where
  creator : Nat
  owner : Nat
  priority : Nat
  payload : Int
  length : Nat
  l4_protocol : Nat
  l4_protocol_compressed : Bool
  l3_destinationAdd : open_addr_t
  l3_sourceAdd : open_addr_t
  l2_nextORpreviousHop : open_addr_t
  l2_frameType : Nat
  l2_retriesLeft : Nat
  l2_IEListPresent : Nat
  l2_isNegativeACK : Nat
  l2_payloadIEpresent : Nat
  l2_securityLevel : Nat
  packet : List Nat
deriving DecidableEq, Repr

/-- Constants and helper functions declared outside `openqueue.c`. -/
structure Defs where
  QUEUELENGTH : Nat
  COMPONENT_NULL : Nat
  COMPONENT_OPENQUEUE : Nat
  COMPONENT_IEEE802154E : Nat
  COMPONENT_SIXTOP_TO_IEEE802154E : Nat
  COMPONENT_IEEE802154E_TO_SIXTOP : Nat
  COMPONENT_SIXTOP : Nat
  COMPONENT_SIXTOP_RES : Nat
  IEEE802154_SECURITY_TAG_LEN : Nat
  IANA_UNDEFINED : Nat
  ADDR_NONE : Nat
  ADDR_64B : Nat
  ADDR_ANYCAST : Nat
  IEEE154_TYPE_UNDEFINED : Nat
  packetfunctions_sameAddress : open_addr_t → open_addr_t → Bool
  packetfunctions_isBroadcastMulticast : open_addr_t → Bool

/-- The `#define HIGH_PRIORITY_QUEUE_ENTRY 5` of `openqueue.c`. -/
def HIGH_PRIORITY_QUEUE_ENTRY : Nat := 5

/-- A value of type `OpenQueueEntry_t*`. -/
inductive EntryPtr where
  | null : EntryPtr
  | slot (i : Nat) : EntryPtr
  | foreign (a : Nat) : EntryPtr
deriving DecidableEq, Repr

/-- The `owerror_t` results used by `openqueue.c`. -/
inductive owerror_t where
  | E_SUCCESS : owerror_t
  | E_FAIL : owerror_t
deriving DecidableEq, Repr

/-! ## Private helper -/

/-- The function `openqueue_reset_entry`: the fields it assigns, all others kept. -/
def openqueue_reset_entry (D : Defs) (entry : OpenQueueEntry_t) : OpenQueueEntry_t :=
  { entry with
    creator := D.COMPONENT_NULL
    owner := D.COMPONENT_NULL
    payload := 127 - (D.IEEE802154_SECURITY_TAG_LEN : Int)
    length := 0
    l4_protocol := D.IANA_UNDEFINED
    l4_protocol_compressed := false
    l3_destinationAdd := { entry.l3_destinationAdd with type := D.ADDR_NONE }
    l3_sourceAdd := { entry.l3_sourceAdd with type := D.ADDR_NONE }
    l2_nextORpreviousHop := { entry.l2_nextORpreviousHop with type := D.ADDR_NONE }
    l2_frameType := D.IEEE154_TYPE_UNDEFINED
    l2_retriesLeft := 0
    l2_IEListPresent := 0
    l2_isNegativeACK := 0
    l2_payloadIEpresent := 0
    l2_securityLevel := 0 }

/-! ## Loop shapes -/

/-- The loop `for (i=..;i<QUEUELENGTH;i++) if (cond(queue[i])) return &queue[i];`
with `n` iterations left from index `i`: the index returned, if any. -/
def scanLoop (cond : OpenQueueEntry_t → Bool) (q : List OpenQueueEntry_t) :
    Nat → Nat → Option Nat
  | _, 0 => none
  | i, n + 1 =>
    match q[i]? with
    | some e => if cond e then some i else scanLoop cond q (i + 1) n
    | none => scanLoop cond q (i + 1) n

/-- The loop `for (i=..;i<QUEUELENGTH;i++) if (cond(queue[i])) openqueue_reset_entry(&queue[i]);`
with `n` iterations left from index `i`. -/
def resetLoop (D : Defs) (cond : OpenQueueEntry_t → Bool) :
    Nat → Nat → List OpenQueueEntry_t → List OpenQueueEntry_t
  | _, 0, q => q
  | i, n + 1, q =>
    match q[i]? with
    | some e =>
      resetLoop D cond (i + 1) n (if cond e then q.set i (openqueue_reset_entry D e) else q)
    | none => resetLoop D cond (i + 1) n q

/-- The counting loop of `openqueue_isHighPriorityEntryEnough`; `numberOfEntry`
is a `uint8_t`, so `numberOfEntry++` is taken modulo 256. -/
def countLoop (D : Defs) (q : List OpenQueueEntry_t) : Nat → Nat → Nat → Nat
  | _, 0, numberOfEntry => numberOfEntry
  | i, n + 1, numberOfEntry =>
    match q[i]? with
    | some e =>
      countLoop D q (i + 1) n
        (if e.creator > D.COMPONENT_SIXTOP_RES then (numberOfEntry + 1) % 256 else numberOfEntry)
    | none => countLoop D q (i + 1) n numberOfEntry

/-! ## Public functions -/

/-- The function `openqueue_init`, run on the storage `mem` of the queue. -/
def openqueue_init (D : Defs) (mem : List OpenQueueEntry_t) : List OpenQueueEntry_t :=
  resetLoop D (fun _ => true) 0 D.QUEUELENGTH mem

/-- The function `openqueue_isHighPriorityEntryEnough`.  The comparison
`numberOfEntry>QUEUELENGTH-HIGH_PRIORITY_QUEUE_ENTRY` is done on C `int`s. -/
def openqueue_isHighPriorityEntryEnough (D : Defs) (q : List OpenQueueEntry_t) : Bool :=
  let numberOfEntry := countLoop D q 0 D.QUEUELENGTH 0
  if (numberOfEntry : Int) > (D.QUEUELENGTH : Int) - (HIGH_PRIORITY_QUEUE_ENTRY : Int) then
    false
  else
    true

/-- The function `openqueue_getFreePacketBuffer`. -/
def openqueue_getFreePacketBuffer (D : Defs) (synch : Bool) (q : List OpenQueueEntry_t)
    (creator : Nat) : List OpenQueueEntry_t × EntryPtr :=
  if synch = false ∧ creator > D.COMPONENT_IEEE802154E then
    (q, .null)
  else if openqueue_isHighPriorityEntryEnough D q = false ∧ creator > D.COMPONENT_SIXTOP_RES then
    (q, .null)
  else
    match scanLoop (fun e => e.owner == D.COMPONENT_NULL) q 0 D.QUEUELENGTH with
    | some i =>
      (q.modify (fun e => { e with creator := creator, owner := D.COMPONENT_OPENQUEUE,
                                   priority := 8 }) i, .slot i)
    | none => (q, .null)

/-- The function `openqueue_getFreePacketBuffer_withpriority`. -/
def openqueue_getFreePacketBuffer_withpriority (D : Defs) (synch : Bool)
    (q : List OpenQueueEntry_t) (creator priority : Nat) : List OpenQueueEntry_t × EntryPtr :=
  if synch = false ∧ creator > D.COMPONENT_IEEE802154E then
    (q, .null)
  else if openqueue_isHighPriorityEntryEnough D q = false ∧ creator > D.COMPONENT_SIXTOP_RES then
    (q, .null)
  else
    match scanLoop (fun e => e.owner == D.COMPONENT_NULL) q 0 D.QUEUELENGTH with
    | some i =>
      (q.modify (fun e => { e with creator := creator, owner := D.COMPONENT_OPENQUEUE,
                                   priority := priority }) i, .slot i)
    | none => (q, .null)

/-- The loop of `openqueue_freePacketBuffer`, with `n` iterations left from
index `i`: it stops at the first `i` with `&queue[i]==pkt`. -/
def freeLoop (D : Defs) (pkt : EntryPtr) :
    Nat → Nat → List OpenQueueEntry_t → List OpenQueueEntry_t × owerror_t
  | _, 0, q => (q, .E_FAIL)
  | i, n + 1, q =>
    if EntryPtr.slot i = pkt then
      (q.modify (openqueue_reset_entry D) i, .E_SUCCESS)
    else
      freeLoop D pkt (i + 1) n q

/-- The function `openqueue_freePacketBuffer`.  The two `openserial_printCritical`
calls only log. -/
def openqueue_freePacketBuffer (D : Defs) (q : List OpenQueueEntry_t) (pkt : EntryPtr) :
    List OpenQueueEntry_t × owerror_t :=
  freeLoop D pkt 0 D.QUEUELENGTH q

/-- The function `openqueue_removeAllCreatedBy`. -/
def openqueue_removeAllCreatedBy (D : Defs) (q : List OpenQueueEntry_t) (creator : Nat) :
    List OpenQueueEntry_t :=
  resetLoop D (fun e => e.creator == creator) 0 D.QUEUELENGTH q

/-- The function `openqueue_removeAllOwnedBy`. -/
def openqueue_removeAllOwnedBy (D : Defs) (q : List OpenQueueEntry_t) (owner : Nat) :
    List OpenQueueEntry_t :=
  resetLoop D (fun e => e.owner == owner) 0 D.QUEUELENGTH q

/-- The function `openqueue_sixtopGetSentPacket`. -/
def openqueue_sixtopGetSentPacket (D : Defs) (q : List OpenQueueEntry_t) : EntryPtr :=
  match scanLoop (fun e => e.owner == D.COMPONENT_IEEE802154E_TO_SIXTOP &&
                           e.creator != D.COMPONENT_IEEE802154E) q 0 D.QUEUELENGTH with
  | some i => .slot i
  | none => .null

/-- The function `openqueue_sixtopGetReceivedPacket`. -/
def openqueue_sixtopGetReceivedPacket (D : Defs) (q : List OpenQueueEntry_t) : EntryPtr :=
  match scanLoop (fun e => e.owner == D.COMPONENT_IEEE802154E_TO_SIXTOP &&
                           e.creator == D.COMPONENT_IEEE802154E) q 0 D.QUEUELENGTH with
  | some i => .slot i
  | none => .null

/-- The function `openqueue_macGetEBPacket`. -/
def openqueue_macGetEBPacket (D : Defs) (q : List OpenQueueEntry_t) : EntryPtr :=
  match scanLoop (fun e => e.owner == D.COMPONENT_SIXTOP_TO_IEEE802154E &&
                           e.creator == D.COMPONENT_SIXTOP &&
                           D.packetfunctions_isBroadcastMulticast e.l2_nextORpreviousHop)
          q 0 D.QUEUELENGTH with
  | some i => .slot i
  | none => .null

/-! ## The sorting loops and `openqueue_macGetDataPacket` -/

/-- Why a run of the sorting code stops without a result: an index outside the
queue array, or the step budget is used up. -/
inductive Fault where
  | outOfBounds : Fault
  | outOfFuel : Fault
deriving DecidableEq, Repr

/-- The read `openqueue_vars.queue[i].priority`. -/
def readPriority (q : List OpenQueueEntry_t) (i : Nat) : Except Fault Nat :=
  match q[i]? with
  | some e => .ok e.priority
  | none => .error .outOfBounds

/-- The write `openqueue_vars.queue[i].priority = v`. -/
def writePriority (q : List OpenQueueEntry_t) (i v : Nat) :
    Except Fault (List OpenQueueEntry_t) :=
  match q[i]? with
  | some e => .ok (q.set i { e with priority := v })
  | none => .error .outOfBounds

/-- The three statements `temp = queue[a].priority; queue[a].priority = queue[b].priority;
queue[b].priority = temp;`. -/
def swapPriority (q : List OpenQueueEntry_t) (a b : Nat) :
    Except Fault (List OpenQueueEntry_t) := do
  let temp ← readPriority q a
  let pb ← readPriority q b
  let q1 ← writePriority q a pb
  writePriority q1 b temp

/-- The `do { ... } while (c != 0);` of the first sorting loop, entered with `c`. -/
def siftUpLoop : Nat → Nat → List OpenQueueEntry_t → Except Fault (List OpenQueueEntry_t)
  | 0, _, _ => .error .outOfFuel
  | fuel + 1, c, q => do
    let root := ((c - 1) / 2) % 256
    let pr ← readPriority q root
    let pc ← readPriority q c
    let q1 ← if pr < pc then swapPriority q root c else pure q
    let c := root
    if c ≠ 0 then siftUpLoop fuel c q1 else pure q1

/-- The first sorting loop `for (i = 1; i < QUEUELENGTH; i++)`, entered with `i`. -/
def heapifyLoop (D : Defs) :
    Nat → Nat → List OpenQueueEntry_t → Except Fault (List OpenQueueEntry_t)
  | 0, _, _ => .error .outOfFuel
  | fuel + 1, i, q =>
    if i < D.QUEUELENGTH then do
      let q1 ← siftUpLoop fuel i q
      heapifyLoop D fuel ((i + 1) % 256) q1
    else
      pure q

/-- The `do { ... } while (c < j);` of the second sorting loop, entered with
`root`.  Both operands `queue[c].priority` and `queue[c + 1].priority` are read
before `c < j-1` is looked at; `j-1` is a C `int`. -/
def siftDownLoop (j : Nat) :
    Nat → Nat → List OpenQueueEntry_t → Except Fault (List OpenQueueEntry_t)
  | 0, _, _ => .error .outOfFuel
  | fuel + 1, root, q => do
    let c := (2 * root + 1) % 256
    let pc ← readPriority q c
    let pc1 ← readPriority q (c + 1)
    let c := if pc < pc1 ∧ (c : Int) < (j : Int) - 1 then (c + 1) % 256 else c
    let pr ← readPriority q root
    let pc ← readPriority q c
    let q1 ← if pr < pc ∧ c < j then swapPriority q root c else pure q
    let root := c
    if c < j then siftDownLoop j fuel root q1 else pure q1

/-- The second sorting loop `for (j = QUEUELENGTH - 1; j >= 0; j--)`, entered
with `j`; `j` is a `uint8_t`, so `j--` is taken modulo 256. -/
def sortLoop : Nat → Nat → List OpenQueueEntry_t → Except Fault (List OpenQueueEntry_t)
  | 0, _, _ => .error .outOfFuel
  | fuel + 1, j, q =>
    if j ≥ 0 then do
      let q1 ← swapPriority q 0 j
      let q2 ← siftDownLoop j fuel 0 q1
      sortLoop fuel ((j + 255) % 256) q2
    else
      pure q

/-- The three candidate scans at the end of `openqueue_macGetDataPacket`. -/
def macGetDataPacket_select (D : Defs) (q : List OpenQueueEntry_t) (toNeighbor : open_addr_t) :
    EntryPtr :=
  match scanLoop (fun e => e.owner == D.COMPONENT_SIXTOP_TO_IEEE802154E &&
                           e.creator == D.COMPONENT_SIXTOP_RES &&
                           ((toNeighbor.type == D.ADDR_64B &&
                               D.packetfunctions_sameAddress toNeighbor e.l2_nextORpreviousHop) ||
                             toNeighbor.type == D.ADDR_ANYCAST))
          q 0 D.QUEUELENGTH with
  | some i => .slot i
  | none =>
    if toNeighbor.type = D.ADDR_64B then
      match scanLoop (fun e => e.owner == D.COMPONENT_SIXTOP_TO_IEEE802154E &&
                               D.packetfunctions_sameAddress toNeighbor e.l2_nextORpreviousHop)
              q 0 D.QUEUELENGTH with
      | some i => .slot i
      | none => .null
    else if toNeighbor.type = D.ADDR_ANYCAST then
      match scanLoop (fun e => e.owner == D.COMPONENT_SIXTOP_TO_IEEE802154E &&
                               (e.creator != D.COMPONENT_SIXTOP ||
                                 (e.creator == D.COMPONENT_SIXTOP &&
                                   D.packetfunctions_isBroadcastMulticast
                                     e.l2_nextORpreviousHop == false)))
              q 0 D.QUEUELENGTH with
      | some i => .slot i
      | none => .null
    else
      .null

/-- The function `openqueue_macGetDataPacket`: the two sorting loops, then the
candidate scans.  `fuel` bounds the number of iterations of every loop; the
initial `j` is `QUEUELENGTH - 1` stored in a `uint8_t`. -/
def openqueue_macGetDataPacket (D : Defs) (fuel : Nat) (q : List OpenQueueEntry_t)
    (toNeighbor : open_addr_t) : Except Fault (List OpenQueueEntry_t × EntryPtr) := do
  let q1 ← heapifyLoop D fuel 1 q
  let q2 ← sortLoop fuel ((D.QUEUELENGTH + 255) % 256) q1
  pure (q2, macGetDataPacket_select D q2 toNeighbor)

/-! ## A concrete build -/

/-- The build used for the concrete evaluations: `QUEUELENGTH` 10, `COMPONENT_NULL` 0 and
component numbers in the privilege order `COMPONENT_IEEE802154E < COMPONENT_SIXTOP_RES`;
two addresses are the same when type and bytes agree, and an address is broadcast when
all its bytes are `0xff`. -/
def openwsn : Defs where
  QUEUELENGTH := 10
  COMPONENT_NULL := 0
  COMPONENT_OPENQUEUE := 3
  COMPONENT_IEEE802154E := 9
  COMPONENT_SIXTOP_TO_IEEE802154E := 10
  COMPONENT_IEEE802154E_TO_SIXTOP := 11
  COMPONENT_SIXTOP := 12
  COMPONENT_SIXTOP_RES := 15
  IEEE802154_SECURITY_TAG_LEN := 0
  IANA_UNDEFINED := 250
  ADDR_NONE := 0
  ADDR_64B := 2
  ADDR_ANYCAST := 6
  IEEE154_TYPE_UNDEFINED := 5
  packetfunctions_sameAddress := fun a b => a.type == b.type && a.addr == b.addr
  packetfunctions_isBroadcastMulticast := fun a => a.addr.all (fun b => b == 255)

/-- A record of zeroed storage, as C leaves a global before `openqueue_init`. -/
def zeroEntry : OpenQueueEntry_t where
  creator := 0
  owner := 0
  priority := 0
  payload := 0
  length := 0
  l4_protocol := 0
  l4_protocol_compressed := false
  l3_destinationAdd := ⟨0, []⟩
  l3_sourceAdd := ⟨0, []⟩
  l2_nextORpreviousHop := ⟨0, []⟩
  l2_frameType := 0
  l2_retriesLeft := 0
  l2_IEListPresent := 0
  l2_isNegativeACK := 0
  l2_payloadIEpresent := 0
  l2_securityLevel := 0
  packet := []

/-- The pool of the concrete build right after `openqueue_init` at start-up. -/
def bootPool : List OpenQueueEntry_t :=
  openqueue_init openwsn (List.replicate 10 zeroEntry)

/-- A number of consecutive calls of `openqueue_getFreePacketBuffer` by `creator`, with no
other call in between: the pointers returned, in call order, and the final pool. -/
def acquireTimes (D : Defs) (synch : Bool) (creator : Nat) :
    Nat → List OpenQueueEntry_t → List EntryPtr × List OpenQueueEntry_t
  | 0, q => ([], q)
  | n + 1, q =>
    let r := openqueue_getFreePacketBuffer D synch q creator
    let rest := acquireTimes D synch creator n r.1
    (r.2 :: rest.1, rest.2)

/-- The concrete pool after five acquires by component 20 on a synchronized node. -/
def fiveDataPool : List OpenQueueEntry_t :=
  (acquireTimes openwsn true 20 5 bootPool).2

/-- The concrete pool after six acquires by component 20 on a synchronized node. -/
def sixDataPool : List OpenQueueEntry_t :=
  (acquireTimes openwsn true 20 6 bootPool).2

/-! ## The sorting loops, with the pool they leave behind

The same loops once more, now returning the pool as the run leaves it together with the
fault that stopped the run, if any.  The theorems `siftUpLoop_eq_run` to
`macGetDataPacket_eq_run` show that these agree with the loops above.  A step that fails
has written nothing: `swapPriority` reads both priorities before it writes, and a write
fails only at an index where the read has failed already. -/

/-- One step of a run: go on with `k` when the step `x` succeeded, otherwise stop with the
pool `q` and the fault. -/
def stepOr {α : Type} (q : List OpenQueueEntry_t) (x : Except Fault α)
    (k : α → List OpenQueueEntry_t × Option Fault) : List OpenQueueEntry_t × Option Fault :=
  match x with
  | .ok a => k a
  | .error f => (q, some f)

/-- The `do { ... } while (c != 0);` of the first sorting loop, entered with `c`: the pool
when the run ends, and the fault that ended it. -/
def siftUpRun : Nat → Nat → List OpenQueueEntry_t → List OpenQueueEntry_t × Option Fault
  | 0, _, q => (q, some .outOfFuel)
  | fuel + 1, c, q =>
    let root := ((c - 1) / 2) % 256
    stepOr q (readPriority q root) fun pr =>
    stepOr q (readPriority q c) fun pc =>
    stepOr q (if pr < pc then swapPriority q root c else pure q) fun q1 =>
    if root ≠ 0 then siftUpRun fuel root q1 else (q1, none)

/-- The first sorting loop `for (i = 1; i < QUEUELENGTH; i++)`, entered with `i`: the pool
when the run ends, and the fault that ended it. -/
def heapifyRun (D : Defs) :
    Nat → Nat → List OpenQueueEntry_t → List OpenQueueEntry_t × Option Fault
  | 0, _, q => (q, some .outOfFuel)
  | fuel + 1, i, q =>
    if i < D.QUEUELENGTH then
      match siftUpRun fuel i q with
      | (q1, none) => heapifyRun D fuel ((i + 1) % 256) q1
      | (q1, some f) => (q1, some f)
    else
      (q, none)

/-- The `do { ... } while (c < j);` of the second sorting loop, entered with `root`: the
pool when the run ends, and the fault that ended it. -/
def siftDownRun (j : Nat) :
    Nat → Nat → List OpenQueueEntry_t → List OpenQueueEntry_t × Option Fault
  | 0, _, q => (q, some .outOfFuel)
  | fuel + 1, root, q =>
    let c := (2 * root + 1) % 256
    stepOr q (readPriority q c) fun pc =>
    stepOr q (readPriority q (c + 1)) fun pc1 =>
    let c := if pc < pc1 ∧ (c : Int) < (j : Int) - 1 then (c + 1) % 256 else c
    stepOr q (readPriority q root) fun pr =>
    stepOr q (readPriority q c) fun pc =>
    stepOr q (if pr < pc ∧ c < j then swapPriority q root c else pure q) fun q1 =>
    if c < j then siftDownRun j fuel c q1 else (q1, none)

/-- The second sorting loop `for (j = QUEUELENGTH - 1; j >= 0; j--)`, entered with `j`: the
pool when the run ends, and the fault that ended it. -/
def sortRun : Nat → Nat → List OpenQueueEntry_t → List OpenQueueEntry_t × Option Fault
  | 0, _, q => (q, some .outOfFuel)
  | fuel + 1, j, q =>
    if j ≥ 0 then
      stepOr q (swapPriority q 0 j) fun q1 =>
      match siftDownRun j fuel 0 q1 with
      | (q2, none) => sortRun fuel ((j + 255) % 256) q2
      | (q2, some f) => (q2, some f)
    else
      (q, none)

/-- The two sorting loops at the head of `openqueue_macGetDataPacket`: the pool when the
run ends, and the fault that ended it. -/
def sortingRun (D : Defs) (fuel : Nat) (q : List OpenQueueEntry_t) :
    List OpenQueueEntry_t × Option Fault :=
  match heapifyRun D fuel 1 q with
  | (q1, none) => sortRun fuel ((D.QUEUELENGTH + 255) % 256) q1
  | (q1, some f) => (q1, some f)

/-- The result of a run as the loops above report it. -/
def runResult (r : List OpenQueueEntry_t × Option Fault) :
    Except Fault (List OpenQueueEntry_t) :=
  match r.2 with
  | none => .ok r.1
  | some f => .error f

/-- A record with its priority blanked: two records agree in every field other than
`priority` when their images agree. -/
def withoutPriority (e : OpenQueueEntry_t) : OpenQueueEntry_t :=
  { e with priority := 0 }

/-! ## Concrete pools for the selection queries -/

/-- A 64-bit neighbor address of the concrete build. -/
def neighborA : open_addr_t := ⟨2, [1, 2, 3, 4, 5, 6, 7, 8]⟩

/-- The anycast pseudo-address of the concrete build. -/
def anycastAddr : open_addr_t := ⟨6, []⟩

/-- An allocated record of the concrete build: zeroed storage with the given creator,
owner, priority and next hop. -/
def sampleEntry (creator owner priority : Nat) (hop : open_addr_t) : OpenQueueEntry_t :=
  { zeroEntry with creator := creator, owner := owner, priority := priority,
                   l2_nextORpreviousHop := hop }

/-- Ten records carrying the priorities 1 to 10 in storage order, none allocated. -/
def risingPool : List OpenQueueEntry_t :=
  (List.range 10).map (fun i => { zeroEntry with priority := i + 1 })

/-- A pool whose slot 0 is a data frame of component 20 for `neighborA` and whose slot 1 is
a control frame (creator `COMPONENT_SIXTOP_RES`) for the same neighbor, both ready to
transmit; the other slots are free. -/
def controlPool : List OpenQueueEntry_t :=
  sampleEntry 20 10 8 neighborA :: sampleEntry 15 10 8 neighborA :: List.replicate 8 zeroEntry

/-- A pool whose slots 0 and 1 are data frames of component 20 for `neighborA`, ready to
transmit, with priority 5 in slot 0 and priority 1 in slot 1; the other slots are free. -/
def twoDataPool : List OpenQueueEntry_t :=
  sampleEntry 20 10 5 neighborA :: sampleEntry 20 10 1 neighborA :: List.replicate 8 zeroEntry

/-- The broadcast address of the concrete build. -/
def broadcastAddr : open_addr_t := ⟨2, [255, 255, 255, 255, 255, 255, 255, 255]⟩

/-- A pool whose slot 0 was received by the link layer (creator `COMPONENT_IEEE802154E`) and
whose slot 1 comes from component 20, both owned by `COMPONENT_IEEE802154E_TO_SIXTOP`; the
other slots are free. -/
def handoffPool : List OpenQueueEntry_t :=
  sampleEntry 9 11 8 neighborA :: sampleEntry 20 11 8 neighborA :: List.replicate 8 zeroEntry

/-- A pool whose slot 0 is a beacon (creator `COMPONENT_SIXTOP`, broadcast next hop) and
whose slot 1 is a data frame of component 20 for `neighborA`, both ready to transmit; the
other slots are free. -/
def beaconPool : List OpenQueueEntry_t :=
  sampleEntry 12 10 8 broadcastAddr :: sampleEntry 20 10 8 neighborA ::
    List.replicate 8 zeroEntry

/-! ## Reachable pools -/

/-- The pools reachable from `openqueue_init` on the storage `mem` by calls of the functions
of `openqueue.c` that write to the pool: acquire (both variants), release, the two bulk
releases, and `openqueue_macGetDataPacket`, whose sorting loops may leave the pool of any
run, finished or not.  The other selection queries do not write to the pool. -/
inductive Reachable (D : Defs) (mem : List OpenQueueEntry_t) :
    List OpenQueueEntry_t → Prop where
  | init : Reachable D mem (openqueue_init D mem)
  | getFreePacketBuffer (q : List OpenQueueEntry_t) (synch : Bool) (creator : Nat) :
      Reachable D mem q → Reachable D mem (openqueue_getFreePacketBuffer D synch q creator).1
  | getFreePacketBuffer_withpriority (q : List OpenQueueEntry_t) (synch : Bool)
      (creator priority : Nat) :
      Reachable D mem q →
      Reachable D mem (openqueue_getFreePacketBuffer_withpriority D synch q creator priority).1
  | freePacketBuffer (q : List OpenQueueEntry_t) (pkt : EntryPtr) :
      Reachable D mem q → Reachable D mem (openqueue_freePacketBuffer D q pkt).1
  | removeAllCreatedBy (q : List OpenQueueEntry_t) (creator : Nat) :
      Reachable D mem q → Reachable D mem (openqueue_removeAllCreatedBy D q creator)
  | removeAllOwnedBy (q : List OpenQueueEntry_t) (owner : Nat) :
      Reachable D mem q → Reachable D mem (openqueue_removeAllOwnedBy D q owner)
  | macGetDataPacket (q : List OpenQueueEntry_t) (fuel : Nat) :
      Reachable D mem q → Reachable D mem (sortingRun D fuel q).1

/-- The metadata of a record are as `openqueue_reset_entry` leaves them: length 0, payload
at the default offset, and the three address types `ADDR_NONE`. -/
def metadataReset (D : Defs) (e : OpenQueueEntry_t) : Prop :=
  e.length = 0 ∧ e.payload = 127 - (D.IEEE802154_SECURITY_TAG_LEN : Int) ∧
  e.l3_destinationAdd.type = D.ADDR_NONE ∧ e.l3_sourceAdd.type = D.ADDR_NONE ∧
  e.l2_nextORpreviousHop.type = D.ADDR_NONE

/-! ## The sorting loops when memory behind the queue can be read

The second sorting loop reads `queue[c].priority` and `queue[c + 1].priority` before it tests
`c` against `j`, so it reads behind the array (theorem `sortingRun_outOfBounds`).  What such a
read does is not defined by C.  Here the loop is taken on a machine where the read delivers
some value `junk i` for the index `i`; the guards `c < j-1` and `c < j` follow the reads as in
the source.  Writes behind the array still stop the run.  Where the loop above gives a result
without such a read, this one gives the same (theorem `siftDownPeek_of_loop`). -/

/-- The read `openqueue_vars.queue[i].priority` when a read behind the array delivers the
value `junk i`. -/
def peekPriority (junk : Nat → Nat) (q : List OpenQueueEntry_t) (i : Nat) : Nat :=
  match q[i]? with
  | some e => e.priority
  | none => junk i

/-- The `do { ... } while (c < j);` of the second sorting loop, entered with `root`, with
reads behind the array delivering `junk`. -/
def siftDownPeek (junk : Nat → Nat) (j : Nat) :
    Nat → Nat → List OpenQueueEntry_t → Except Fault (List OpenQueueEntry_t)
  | 0, _, _ => .error .outOfFuel
  | fuel + 1, root, q => do
    let c := (2 * root + 1) % 256
    let pc := peekPriority junk q c
    let pc1 := peekPriority junk q (c + 1)
    let c := if pc < pc1 ∧ (c : Int) < (j : Int) - 1 then (c + 1) % 256 else c
    let pr := peekPriority junk q root
    let pc := peekPriority junk q c
    let q1 ← if pr < pc ∧ c < j then swapPriority q root c else pure q
    let root := c
    if c < j then siftDownPeek junk j fuel root q1 else pure q1

theorem scanLoop_eq_some {cond : OpenQueueEntry_t → Bool} {q : List OpenQueueEntry_t} :
    ∀ {n i k : Nat}, scanLoop cond q i n = some k →
      i ≤ k ∧ k < i + n ∧ (∃ e, q[k]? = some e ∧ cond e = true) ∧
        ∀ m, i ≤ m → m < k → ∀ e, q[m]? = some e → cond e = false := by
  intro n
  induction n with
  | zero => intro i k h; simp [scanLoop] at h
  | succ n ih =>
    intro i k h
    unfold scanLoop at h
    cases hq : q[i]? with
    | none =>
      rw [hq] at h
      obtain ⟨h1, h2, h3, h4⟩ := ih h
      refine ⟨by omega, by omega, h3, ?_⟩
      intro m hm hmk e he
      rcases Nat.eq_or_lt_of_le hm with heq | hlt
      · subst heq; rw [hq] at he; cases he
      · exact h4 m hlt hmk e he
    | some e0 =>
      rw [hq] at h
      by_cases hc : cond e0 = true
      · simp only [hc, if_true, Option.some.injEq] at h
        subst h
        exact ⟨le_refl _, by omega, ⟨e0, hq, hc⟩, fun m hm hmk => by omega⟩
      · simp only [hc] at h
        obtain ⟨h1, h2, h3, h4⟩ := ih h
        refine ⟨by omega, by omega, h3, ?_⟩
        intro m hm hmk e he
        rcases Nat.eq_or_lt_of_le hm with heq | hlt
        · subst heq; rw [hq] at he; cases he; simpa using hc
        · exact h4 m hlt hmk e he

theorem scanLoop_eq_none {cond : OpenQueueEntry_t → Bool} {q : List OpenQueueEntry_t} :
    ∀ {n i : Nat}, scanLoop cond q i n = none ↔
      ∀ m, i ≤ m → m < i + n → ∀ e, q[m]? = some e → cond e = false := by
  intro n
  induction n with
  | zero => intro i; simp only [scanLoop, true_iff]; intro m h1 h2; omega
  | succ n ih =>
    intro i
    unfold scanLoop
    cases hq : q[i]? with
    | none =>
      simp only []
      rw [ih]
      constructor
      · intro h m hm hmn e he
        rcases Nat.eq_or_lt_of_le hm with heq | hlt
        · subst heq; rw [hq] at he; cases he
        · exact h m hlt (by omega) e he
      · intro h m hm hmn e he
        exact h m (by omega) (by omega) e he
    | some e0 =>
      simp only []
      by_cases hc : cond e0 = true
      · simp only [hc, if_true]
        constructor
        · intro h; cases h
        · intro h
          have := h i (le_refl _) (by omega) e0 hq
          rw [hc] at this; cases this
      · simp only [hc]
        rw [if_neg (by simp), ih]
        constructor
        · intro h m hm hmn e he
          rcases Nat.eq_or_lt_of_le hm with heq | hlt
          · subst heq; rw [hq] at he; cases he; simpa using hc
          · exact h m hlt (by omega) e he
        · intro h m hm hmn e he
          exact h m (by omega) (by omega) e he

/-- Over a whole pool the scan finds nothing exactly when no record satisfies `cond`. -/
theorem scanLoop_none_iff_forall {cond : OpenQueueEntry_t → Bool} {q : List OpenQueueEntry_t} :
    scanLoop cond q 0 q.length = none ↔ ∀ e ∈ q, cond e = false := by
  rw [scanLoop_eq_none]
  constructor
  · intro h e he
    obtain ⟨m, hm, hget⟩ := List.getElem_of_mem he
    exact h m (Nat.zero_le _) (by omega) e (by rw [List.getElem?_eq_getElem hm, hget])
  · intro h m _ _ e he
    exact h e (List.getElem?_mem he)

theorem countLoop_eq (D : Defs) (q : List OpenQueueEntry_t) :
    ∀ (n i acc : Nat), acc + n ≤ 255 →
      countLoop D q i n acc =
        acc + ((q.drop i).take n).countP (fun e => decide (e.creator > D.COMPONENT_SIXTOP_RES)) := by
  intro n
  induction n with
  | zero => intro i acc _; simp [countLoop]
  | succ n ih =>
    intro i acc hacc
    unfold countLoop
    cases hq : q[i]? with
    | none =>
      have hi : q.length ≤ i := by simpa using hq
      simp only []
      rw [ih (i + 1) acc (by omega)]
      rw [List.drop_eq_nil_of_le hi, List.drop_eq_nil_of_le (by omega : q.length ≤ i + 1)]
      simp
    | some e0 =>
      have hi : i < q.length := by
        by_contra hcon
        have : q[i]? = none := by simp; omega
        rw [this] at hq; cases hq
      have he0 : q[i] = e0 := by
        rw [List.getElem?_eq_getElem hi] at hq; exact Option.some.inj hq
      have hdrop : q.drop i = e0 :: q.drop (i + 1) := by
        rw [← he0]; exact List.drop_eq_getElem_cons hi
      simp only []
      rw [hdrop, List.take_succ_cons, List.countP_cons]
      by_cases hc : e0.creator > D.COMPONENT_SIXTOP_RES
      · simp only [hc, if_true, decide_True]
        rw [Nat.mod_eq_of_lt (by omega), ih (i + 1) (acc + 1) (by omega)]
        omega
      · simp only [hc, if_false, decide_False]
        rw [ih (i + 1) acc (by omega)]
        simp

/-- On a well-formed pool the quota check compares the number of records created
by a component above `COMPONENT_SIXTOP_RES` with `QUEUELENGTH - HIGH_PRIORITY_QUEUE_ENTRY`. -/
theorem isHighPriorityEntryEnough_eq_false_iff (D : Defs) (hQ : D.QUEUELENGTH ≤ 255)
    (q : List OpenQueueEntry_t) (hlen : q.length = D.QUEUELENGTH) :
    openqueue_isHighPriorityEntryEnough D q = false ↔
      ((q.countP (fun e => decide (e.creator > D.COMPONENT_SIXTOP_RES)) : Nat) : Int) >
        (D.QUEUELENGTH : Int) - (HIGH_PRIORITY_QUEUE_ENTRY : Int) := by
  unfold openqueue_isHighPriorityEntryEnough
  simp only []
  rw [countLoop_eq D q D.QUEUELENGTH 0 0 (by omega)]
  rw [List.drop_zero, ← hlen, List.take_length, Nat.zero_add]
  by_cases h : ((q.countP (fun e => decide (e.creator > D.COMPONENT_SIXTOP_RES)) : Nat) : Int) >
      ((q.length : Nat) : Int) - (HIGH_PRIORITY_QUEUE_ENTRY : Int)
  · simp [h]
  · simp [h]

/-! ## Acquire -/

/-- The pointer returned by the variant with a priority argument. -/
theorem getFree_withpriority_ptr (D : Defs) (synch : Bool) (q : List OpenQueueEntry_t)
    (creator priority : Nat) :
    (openqueue_getFreePacketBuffer_withpriority D synch q creator priority).2 =
      if synch = false ∧ creator > D.COMPONENT_IEEE802154E then EntryPtr.null
      else if openqueue_isHighPriorityEntryEnough D q = false ∧
          creator > D.COMPONENT_SIXTOP_RES then EntryPtr.null
      else match scanLoop (fun e => e.owner == D.COMPONENT_NULL) q 0 D.QUEUELENGTH with
        | some i => EntryPtr.slot i
        | none => EntryPtr.null := by
  unfold openqueue_getFreePacketBuffer_withpriority
  split
  · rfl
  · split
    · rfl
    · split <;> rfl

/-- The variant without a priority argument is the other one called with 8. -/
theorem getFree_eq_withpriority (D : Defs) (synch : Bool) (q : List OpenQueueEntry_t)
    (creator : Nat) :
    openqueue_getFreePacketBuffer D synch q creator =
      openqueue_getFreePacketBuffer_withpriority D synch q creator 8 := rfl

/-- A refused acquire leaves the pool as it was. -/
theorem getFree_withpriority_null_pool (D : Defs) (synch : Bool) (q : List OpenQueueEntry_t)
    (creator priority : Nat)
    (h : (openqueue_getFreePacketBuffer_withpriority D synch q creator priority).2 =
      EntryPtr.null) :
    (openqueue_getFreePacketBuffer_withpriority D synch q creator priority).1 = q := by
  unfold openqueue_getFreePacketBuffer_withpriority at h ⊢
  split
  · rfl
  · split
    · rfl
    · split
      · rename_i i hi
        rw [if_neg (by assumption), if_neg (by assumption), hi] at h
        cases h
      · rfl

/-- When acquire returns `NULL`, in terms of the two gates and the scan. -/
theorem getFree_withpriority_null_iff (D : Defs) (hQ : D.QUEUELENGTH ≤ 255) (synch : Bool)
    (q : List OpenQueueEntry_t) (hlen : q.length = D.QUEUELENGTH) (creator priority : Nat) :
    (openqueue_getFreePacketBuffer_withpriority D synch q creator priority).2 = EntryPtr.null ↔
      (synch = false ∧ creator > D.COMPONENT_IEEE802154E) ∨
      (((q.countP (fun e => decide (e.creator > D.COMPONENT_SIXTOP_RES)) : Nat) : Int) >
          (D.QUEUELENGTH : Int) - (HIGH_PRIORITY_QUEUE_ENTRY : Int) ∧
        creator > D.COMPONENT_SIXTOP_RES) ∨
      (∀ e ∈ q, e.owner ≠ D.COMPONENT_NULL) := by
  rw [getFree_withpriority_ptr, ← isHighPriorityEntryEnough_eq_false_iff D hQ q hlen]
  have hscan : scanLoop (fun e => e.owner == D.COMPONENT_NULL) q 0 D.QUEUELENGTH = none ↔
      ∀ e ∈ q, e.owner ≠ D.COMPONENT_NULL := by
    rw [← hlen, scanLoop_none_iff_forall]
    simp
  by_cases h1 : synch = false ∧ creator > D.COMPONENT_IEEE802154E
  · simp [h1]
  · rw [if_neg h1]
    by_cases h2 : openqueue_isHighPriorityEntryEnough D q = false ∧
        creator > D.COMPONENT_SIXTOP_RES
    · simp [h2]
    · rw [if_neg h2, ← hscan]
      cases hs : scanLoop (fun e => e.owner == D.COMPONENT_NULL) q 0 D.QUEUELENGTH with
      | none => simp
      | some i =>
        constructor
        · intro hcon; cases hcon
        · rintro (hcon | hcon | hcon)
          · exact absurd hcon h1
          · exact absurd hcon h2
          · cases hcon

/-- Claim C1: on a well-formed pool, either variant of acquire returns `NULL` exactly when
(a) the node is not synchronized and `creator > COMPONENT_IEEE802154E`, or (b) more than
`QUEUELENGTH - HIGH_PRIORITY_QUEUE_ENTRY` records have a creator above `COMPONENT_SIXTOP_RES`
and `creator > COMPONENT_SIXTOP_RES`, or (c) no record has owner `COMPONENT_NULL`; a refused
acquire leaves the pool unchanged; and an unsynchronized acquire by a creator at most
`COMPONENT_IEEE802154E` (with `COMPONENT_IEEE802154E <= COMPONENT_SIXTOP_RES`) succeeds
whenever a free record exists. -/
theorem acquire_refused_iff (D : Defs) (hQ : D.QUEUELENGTH ≤ 255) (synch : Bool)
    (q : List OpenQueueEntry_t) (hlen : q.length = D.QUEUELENGTH) (creator priority : Nat) :
    ((openqueue_getFreePacketBuffer_withpriority D synch q creator priority).2 = EntryPtr.null ↔
      (synch = false ∧ creator > D.COMPONENT_IEEE802154E) ∨
      (((q.countP (fun e => decide (e.creator > D.COMPONENT_SIXTOP_RES)) : Nat) : Int) >
          (D.QUEUELENGTH : Int) - (HIGH_PRIORITY_QUEUE_ENTRY : Int) ∧
        creator > D.COMPONENT_SIXTOP_RES) ∨
      (∀ e ∈ q, e.owner ≠ D.COMPONENT_NULL)) ∧
    ((openqueue_getFreePacketBuffer D synch q creator).2 = EntryPtr.null ↔
      (synch = false ∧ creator > D.COMPONENT_IEEE802154E) ∨
      (((q.countP (fun e => decide (e.creator > D.COMPONENT_SIXTOP_RES)) : Nat) : Int) >
          (D.QUEUELENGTH : Int) - (HIGH_PRIORITY_QUEUE_ENTRY : Int) ∧
        creator > D.COMPONENT_SIXTOP_RES) ∨
      (∀ e ∈ q, e.owner ≠ D.COMPONENT_NULL)) ∧
    ((openqueue_getFreePacketBuffer_withpriority D synch q creator priority).2 = EntryPtr.null →
      (openqueue_getFreePacketBuffer_withpriority D synch q creator priority).1 = q) ∧
    ((openqueue_getFreePacketBuffer D synch q creator).2 = EntryPtr.null →
      (openqueue_getFreePacketBuffer D synch q creator).1 = q) ∧
    (synch = false → creator ≤ D.COMPONENT_IEEE802154E →
      D.COMPONENT_IEEE802154E ≤ D.COMPONENT_SIXTOP_RES →
      (∃ e ∈ q, e.owner = D.COMPONENT_NULL) →
      (∃ i, (openqueue_getFreePacketBuffer_withpriority D synch q creator priority).2 =
          EntryPtr.slot i) ∧
      (∃ i, (openqueue_getFreePacketBuffer D synch q creator).2 = EntryPtr.slot i)) := by
  refine ⟨getFree_withpriority_null_iff D hQ synch q hlen creator priority, ?_,
    getFree_withpriority_null_pool D synch q creator priority, ?_, ?_⟩
  · rw [getFree_eq_withpriority]
    exact getFree_withpriority_null_iff D hQ synch q hlen creator 8
  · rw [getFree_eq_withpriority]
    exact getFree_withpriority_null_pool D synch q creator 8
  · intro _ hc hle hfree
    have key : ∀ p, ∃ i, (openqueue_getFreePacketBuffer_withpriority D synch q creator p).2 =
        EntryPtr.slot i := by
      intro p
      have hne : (openqueue_getFreePacketBuffer_withpriority D synch q creator p).2 ≠
          EntryPtr.null := by
        rw [Ne, getFree_withpriority_null_iff D hQ synch q hlen creator p]
        rintro (⟨_, h⟩ | ⟨_, h⟩ | h)
        · omega
        · omega
        · obtain ⟨e, he, hnull⟩ := hfree
          exact h e he hnull
      rw [getFree_withpriority_ptr] at hne ⊢
      split at hne
      · exact absurd rfl hne
      · split at hne
        · exact absurd rfl hne
        · rw [if_neg (by assumption), if_neg (by assumption)]
          split at hne
          · rename_i i hi
            exact ⟨i, rfl⟩
          · exact absurd rfl hne
    exact ⟨key priority, by rw [getFree_eq_withpriority]; exact key 8⟩

/-- Witness for claim C1 on the concrete build: unsynchronized, component 20 is refused
and component 9 obtains a record from the start-up pool. -/
theorem acquire_refused_iff_witness :
    openwsn.QUEUELENGTH ≤ 255 ∧ bootPool.length = openwsn.QUEUELENGTH ∧
    (openqueue_getFreePacketBuffer openwsn false bootPool 20).2 = EntryPtr.null ∧
    (∃ i, (openqueue_getFreePacketBuffer openwsn false bootPool 9).2 = EntryPtr.slot i) :=
  ⟨by decide, by decide,
    (acquire_refused_iff openwsn (by decide) false bootPool (by decide) 20 3).2.1.2
      (Or.inl ⟨rfl, by decide⟩),
    ((acquire_refused_iff openwsn (by decide) false bootPool (by decide) 9 3).2.2.2.2
      rfl (by decide) (by decide) (by decide)).2⟩

/-- A successful acquire: the scan found the slot, and the pool is the old one with that
slot claimed. -/
theorem getFree_withpriority_slot (D : Defs) (synch : Bool) (q : List OpenQueueEntry_t)
    (creator priority i : Nat)
    (h : (openqueue_getFreePacketBuffer_withpriority D synch q creator priority).2 =
      EntryPtr.slot i) :
    scanLoop (fun e => e.owner == D.COMPONENT_NULL) q 0 D.QUEUELENGTH = some i ∧
    (openqueue_getFreePacketBuffer_withpriority D synch q creator priority).1 =
      q.modify (fun e => { e with creator := creator, owner := D.COMPONENT_OPENQUEUE,
                                  priority := priority }) i := by
  unfold openqueue_getFreePacketBuffer_withpriority at h ⊢
  split at h
  · cases h
  · split at h
    · cases h
    · rw [if_neg (by assumption), if_neg (by assumption)]
      split at h
      · rename_i k hk
        rw [hk]
        simp only [EntryPtr.slot.injEq] at h
        subst h
        exact ⟨rfl, rfl⟩
      · cases h

/-- Claim C2: when acquire returns slot `i`, that slot is the lowest-index record with owner
`COMPONENT_NULL`; afterwards it has the caller as creator, owner `COMPONENT_OPENQUEUE` and
the requested priority, its other fields are as before, and every other record is unchanged;
the variant without a priority argument equals the other one called with priority 8. -/
theorem acquire_claims_first_free (D : Defs) (synch : Bool) (q : List OpenQueueEntry_t)
    (creator priority i : Nat)
    (h : (openqueue_getFreePacketBuffer_withpriority D synch q creator priority).2 =
      EntryPtr.slot i) :
    (∃ e, q[i]? = some e ∧ e.owner = D.COMPONENT_NULL ∧
      (∀ m, m < i → ∀ e1, q[m]? = some e1 → e1.owner ≠ D.COMPONENT_NULL) ∧
      (openqueue_getFreePacketBuffer_withpriority D synch q creator priority).1[i]? =
        some { e with creator := creator, owner := D.COMPONENT_OPENQUEUE,
                      priority := priority }) ∧
    (∀ m, m ≠ i →
      (openqueue_getFreePacketBuffer_withpriority D synch q creator priority).1[m]? = q[m]?) ∧
    (openqueue_getFreePacketBuffer_withpriority D synch q creator priority).1.length =
      q.length ∧
    openqueue_getFreePacketBuffer D synch q creator =
      openqueue_getFreePacketBuffer_withpriority D synch q creator 8 := by
  obtain ⟨hk, hpool⟩ := getFree_withpriority_slot D synch q creator priority i h
  rw [hpool]
  obtain ⟨_, _, ⟨e, he, hc⟩, hbefore⟩ := scanLoop_eq_some hk
  refine ⟨⟨e, he, by simpa using hc, ?_, ?_⟩, ?_, ?_, rfl⟩
  · intro m hm e1 he1
    have := hbefore m (Nat.zero_le _) hm e1 he1
    simpa using this
  · simp [List.getElem?_modify_eq, he]
  · intro m hm
    exact List.getElem?_modify_ne _ _ (Ne.symm hm)
  · simp

/-- Witness for claim C2: the first acquire on the start-up pool of the concrete build. -/
theorem acquire_claims_first_free_witness :
    (openqueue_getFreePacketBuffer_withpriority openwsn true bootPool 20 3).2 =
      EntryPtr.slot 0 ∧
    (openqueue_getFreePacketBuffer_withpriority openwsn true bootPool 20 3).1.length =
      bootPool.length :=
  ⟨by decide, (acquire_claims_first_free openwsn true bootPool 20 3 0 (by decide)).2.2.1⟩

/-- Claim C3 as stated fails: with exactly `QUEUELENGTH - HIGH_PRIORITY_QUEUE_ENTRY` = 5
records of a non-privileged creator in the pool of a synchronized node, a further acquire
by the non-privileged component 20 still returns a record. -/
theorem quota_reached_counterexample :
    fiveDataPool.length = openwsn.QUEUELENGTH ∧
    ((fiveDataPool.countP (fun e => decide (e.creator > openwsn.COMPONENT_SIXTOP_RES)) : Nat)
        : Int) ≥ (openwsn.QUEUELENGTH : Int) - (HIGH_PRIORITY_QUEUE_ENTRY : Int) ∧
    20 > openwsn.COMPONENT_SIXTOP_RES ∧
    (openqueue_getFreePacketBuffer openwsn true fiveDataPool 20).2 = EntryPtr.slot 5 := by
  decide

/-- Claim C3, amended: on a well-formed pool of a synchronized node in which the number of
records with a creator above `COMPONENT_SIXTOP_RES` exceeds
`QUEUELENGTH - HIGH_PRIORITY_QUEUE_ENTRY`, acquire by a creator above `COMPONENT_SIXTOP_RES`
returns `NULL`, while acquire by a creator at most `COMPONENT_SIXTOP_RES` returns a record
whenever a free record exists. -/
theorem quota_exceeded_refuses (D : Defs) (hQ : D.QUEUELENGTH ≤ 255)
    (q : List OpenQueueEntry_t) (hlen : q.length = D.QUEUELENGTH)
    (hcount : ((q.countP (fun e => decide (e.creator > D.COMPONENT_SIXTOP_RES)) : Nat) : Int) >
      (D.QUEUELENGTH : Int) - (HIGH_PRIORITY_QUEUE_ENTRY : Int))
    (creator priority : Nat) :
    (creator > D.COMPONENT_SIXTOP_RES →
      (openqueue_getFreePacketBuffer D true q creator).2 = EntryPtr.null ∧
      (openqueue_getFreePacketBuffer_withpriority D true q creator priority).2 =
        EntryPtr.null) ∧
    (creator ≤ D.COMPONENT_SIXTOP_RES → (∃ e ∈ q, e.owner = D.COMPONENT_NULL) →
      (∃ i, (openqueue_getFreePacketBuffer D true q creator).2 = EntryPtr.slot i) ∧
      (∃ i, (openqueue_getFreePacketBuffer_withpriority D true q creator priority).2 =
        EntryPtr.slot i)) := by
  have hnull := fun p => getFree_withpriority_null_iff D hQ true q hlen creator p
  constructor
  · intro hc
    exact ⟨by rw [getFree_eq_withpriority]; exact (hnull 8).2 (Or.inr (Or.inl ⟨hcount, hc⟩)),
      (hnull priority).2 (Or.inr (Or.inl ⟨hcount, hc⟩))⟩
  · intro hc hfree
    have key : ∀ p, ∃ i, (openqueue_getFreePacketBuffer_withpriority D true q creator p).2 =
        EntryPtr.slot i := by
      intro p
      cases hr : (openqueue_getFreePacketBuffer_withpriority D true q creator p).2 with
      | slot i => exact ⟨i, rfl⟩
      | null =>
        rcases (hnull p).1 hr with ⟨h, _⟩ | ⟨_, h⟩ | h
        · cases h
        · omega
        · obtain ⟨e, he, h0⟩ := hfree
          exact absurd h0 (h e he)
      | foreign a =>
        rw [getFree_withpriority_ptr] at hr
        split at hr
        · cases hr
        · split at hr
          · cases hr
          · split at hr <;> cases hr
    exact ⟨by rw [getFree_eq_withpriority]; exact key 8, key priority⟩

/-- Witness for the amended claim C3: the concrete pool holding six records of component 20. -/
theorem quota_exceeded_refuses_witness :
    openwsn.QUEUELENGTH ≤ 255 ∧ sixDataPool.length = openwsn.QUEUELENGTH ∧
    ((sixDataPool.countP (fun e => decide (e.creator > openwsn.COMPONENT_SIXTOP_RES)) : Nat)
        : Int) > (openwsn.QUEUELENGTH : Int) - (HIGH_PRIORITY_QUEUE_ENTRY : Int) ∧
    (openqueue_getFreePacketBuffer openwsn true sixDataPool 20).2 = EntryPtr.null ∧
    (∃ i, (openqueue_getFreePacketBuffer openwsn true sixDataPool 15).2 = EntryPtr.slot i) :=
  ⟨by decide, by decide, by decide,
    ((quota_exceeded_refuses openwsn (by decide) sixDataPool (by decide) (by decide) 20 8).1
      (by decide)).1,
    ((quota_exceeded_refuses openwsn (by decide) sixDataPool (by decide) (by decide) 15 8).2
      (by decide) (by decide)).1⟩

/-! ## The reset loops -/

/-- Record by record, the reset loop started at `i` for `n` iterations resets the records at
indices `i .. i+n-1` that satisfy `cond` and keeps every other record. -/
theorem resetLoop_getElem? (D : Defs) (cond : OpenQueueEntry_t → Bool) :
    ∀ (n i : Nat) (q : List OpenQueueEntry_t) (m : Nat),
      (resetLoop D cond i n q)[m]? =
        if i ≤ m ∧ m < i + n then
          (q[m]?).map (fun e => if cond e then openqueue_reset_entry D e else e)
        else q[m]? := by
  intro n
  induction n with
  | zero =>
    intro i q m
    have hno : ¬ (i ≤ m ∧ m < i + 0) := by omega
    rw [if_neg hno]
    rfl
  | succ n ih =>
    intro i q m
    unfold resetLoop
    cases hq : q[i]? with
    | none =>
      have hi : q.length ≤ i := by simpa using hq
      simp only []
      rw [ih]
      by_cases hm : i ≤ m
      · have hnone : q[m]? = none := by simp; omega
        simp [hnone]
      · have h1 : ¬ (i + 1 ≤ m ∧ m < i + 1 + n) := by omega
        have h2 : ¬ (i ≤ m ∧ m < i + (n + 1)) := by omega
        rw [if_neg h1, if_neg h2]
    | some e0 =>
      simp only []
      rw [ih]
      by_cases hmi : m = i
      · subst hmi
        have h1 : ¬ (m + 1 ≤ m ∧ m < m + 1 + n) := by omega
        have h2 : m ≤ m ∧ m < m + (n + 1) := by omega
        have hlt : m < q.length := by
          by_contra hcon
          have : q[m]? = none := by simp; omega
          rw [this] at hq; cases hq
        rw [if_neg h1, if_pos h2, hq]
        by_cases hc : cond e0 = true
        · simp [hc, List.getElem?_set_self, hlt]
        · simp [hc, hq]
      · have hset : (if cond e0 = true then q.set i (openqueue_reset_entry D e0) else q)[m]? =
            q[m]? := by
          split
          · exact List.getElem?_set_ne (Ne.symm hmi)
          · rfl
        rw [hset]
        by_cases hr : i + 1 ≤ m ∧ m < i + 1 + n
        · rw [if_pos hr, if_pos (by omega)]
        · rw [if_neg hr, if_neg (by omega)]

theorem resetLoop_length (D : Defs) (cond : OpenQueueEntry_t → Bool) :
    ∀ (n i : Nat) (q : List OpenQueueEntry_t), (resetLoop D cond i n q).length = q.length := by
  intro n
  induction n with
  | zero => intro i q; rfl
  | succ n ih =>
    intro i q
    unfold resetLoop
    cases hq : q[i]? with
    | none => simp only []; rw [ih]
    | some e0 =>
      simp only []
      rw [ih]
      split
      · simp
      · rfl

/-- Over a whole pool the reset loop is a map. -/
theorem resetLoop_eq_map (D : Defs) (cond : OpenQueueEntry_t → Bool)
    (q : List OpenQueueEntry_t) :
    resetLoop D cond 0 q.length q =
      q.map (fun e => if cond e then openqueue_reset_entry D e else e) := by
  apply List.ext_getElem?
  intro m
  rw [resetLoop_getElem?]
  by_cases hm : m < q.length
  · rw [if_pos (by omega)]; simp
  · rw [if_neg (by omega)]
    have : q[m]? = none := by simp; omega
    simp [this]

/-- On storage of `QUEUELENGTH` records, `openqueue_init` resets every record. -/
theorem openqueue_init_eq_map (D : Defs) (mem : List OpenQueueEntry_t)
    (hlen : mem.length = D.QUEUELENGTH) :
    openqueue_init D mem = mem.map (openqueue_reset_entry D) := by
  unfold openqueue_init
  rw [← hlen, resetLoop_eq_map]
  simp

/-! ## The capacity scenario -/

/-- Claim C4 as stated fails: on the concrete build (`QUEUELENGTH` 10, synchronized, start-up
pool) only the first six of ten consecutive acquires by component 20 return a record; the
seventh to tenth return `NULL`. -/
theorem nine_acquires_counterexample :
    (acquireTimes openwsn true 20 10 bootPool).1 =
      [EntryPtr.slot 0, EntryPtr.slot 1, EntryPtr.slot 2, EntryPtr.slot 3, EntryPtr.slot 4,
        EntryPtr.slot 5, EntryPtr.null, EntryPtr.null, EntryPtr.null, EntryPtr.null] := by
  decide

theorem length_ten_cases (mem : List OpenQueueEntry_t) (hmem : mem.length = 10) :
    ∃ e0 e1 e2 e3 e4 e5 e6 e7 e8 e9, mem = [e0, e1, e2, e3, e4, e5, e6, e7, e8, e9] := by
  match mem, hmem with
  | [e0, e1, e2, e3, e4, e5, e6, e7, e8, e9], _ => exact ⟨e0, e1, e2, e3, e4, e5, e6, e7, e8, e9, rfl⟩

/-- Claim C4, amended: with `QUEUELENGTH` 10 and `HIGH_PRIORITY_QUEUE_ENTRY` 5, from the
freshly initialised pool of a synchronized node and with no release in between, six
consecutive acquires by a creator above `COMPONENT_SIXTOP_RES` return the slots 0 to 5, the
seventh returns `NULL`, and a following acquire by a creator at most `COMPONENT_SIXTOP_RES`
returns slot 6, after which exactly seven records are occupied. -/
theorem capacity_scenario (D : Defs) (hQ : D.QUEUELENGTH = 10)
    (hnull : D.COMPONENT_NULL ≤ D.COMPONENT_SIXTOP_RES)
    (hoq : D.COMPONENT_OPENQUEUE ≠ D.COMPONENT_NULL)
    (mem : List OpenQueueEntry_t) (hmem : mem.length = 10)
    (c p : Nat) (hc : c > D.COMPONENT_SIXTOP_RES) (hp : p ≤ D.COMPONENT_SIXTOP_RES) :
    (acquireTimes D true c 7 (openqueue_init D mem)).1 =
      [EntryPtr.slot 0, EntryPtr.slot 1, EntryPtr.slot 2, EntryPtr.slot 3, EntryPtr.slot 4,
        EntryPtr.slot 5, EntryPtr.null] ∧
    (openqueue_getFreePacketBuffer D true
      (acquireTimes D true c 7 (openqueue_init D mem)).2 p).2 = EntryPtr.slot 6 ∧
    (openqueue_getFreePacketBuffer D true
      (acquireTimes D true c 7 (openqueue_init D mem)).2 p).1.countP
        (fun e => decide (e.owner ≠ D.COMPONENT_NULL)) = 7 := by
  rw [openqueue_init_eq_map D mem (by omega)]
  obtain ⟨e0, e1, e2, e3, e4, e5, e6, e7, e8, e9, rfl⟩ := length_ten_cases mem hmem
  have hc' : ¬ c ≤ D.COMPONENT_SIXTOP_RES := by omega
  have hn' : ¬ D.COMPONENT_SIXTOP_RES < D.COMPONENT_NULL := by omega
  have hp' : ¬ D.COMPONENT_SIXTOP_RES < p := by omega
  simp [acquireTimes, openqueue_getFreePacketBuffer, openqueue_isHighPriorityEntryEnough,
    countLoop, scanLoop, openqueue_reset_entry, hQ, HIGH_PRIORITY_QUEUE_ENTRY, hc, hc', hn', hp',
    hoq, List.modify, List.modifyHead, List.modifyTailIdx]

/-- Witness for the amended claim C4: the concrete build, zeroed storage, components 20 and 15. -/
theorem capacity_scenario_witness :
    openwsn.QUEUELENGTH = 10 ∧ openwsn.COMPONENT_NULL ≤ openwsn.COMPONENT_SIXTOP_RES ∧
    openwsn.COMPONENT_OPENQUEUE ≠ openwsn.COMPONENT_NULL ∧
    (List.replicate 10 zeroEntry).length = 10 ∧
    20 > openwsn.COMPONENT_SIXTOP_RES ∧ 15 ≤ openwsn.COMPONENT_SIXTOP_RES ∧
    (openqueue_getFreePacketBuffer openwsn true
      (acquireTimes openwsn true 20 7
        (openqueue_init openwsn (List.replicate 10 zeroEntry))).2 15).2 = EntryPtr.slot 6 :=
  ⟨by decide, by decide, by decide, by decide, by decide, by decide,
    (capacity_scenario openwsn (by decide) (by decide) (by decide) (List.replicate 10 zeroEntry)
      (by decide) 20 15 (by decide) (by decide)).2.1⟩

/-! ## Release -/

theorem freeLoop_slot (D : Defs) (k : Nat) :
    ∀ (n i : Nat) (q : List OpenQueueEntry_t), i ≤ k → k < i + n →
      freeLoop D (EntryPtr.slot k) i n q =
        (q.modify (openqueue_reset_entry D) k, owerror_t.E_SUCCESS) := by
  intro n
  induction n with
  | zero => intro i q h1 h2; omega
  | succ n ih =>
    intro i q h1 h2
    unfold freeLoop
    by_cases hik : i = k
    · subst hik; rw [if_pos rfl]
    · rw [if_neg (by simpa using hik)]
      exact ih (i + 1) q (by omega) (by omega)

theorem freeLoop_other (D : Defs) (pkt : EntryPtr) :
    ∀ (n i : Nat) (q : List OpenQueueEntry_t),
      (∀ k, i ≤ k → k < i + n → pkt ≠ EntryPtr.slot k) →
      freeLoop D pkt i n q = (q, owerror_t.E_FAIL) := by
  intro n
  induction n with
  | zero => intro i q _; rfl
  | succ n ih =>
    intro i q h
    unfold freeLoop
    rw [if_neg (fun hcon => h i (le_refl _) (by omega) hcon.symm)]
    exact ih (i + 1) q (fun k h1 h2 => h k (by omega) (by omega))

/-- Releasing slot `i` of the pool resets that slot and reports success. -/
theorem freePacketBuffer_slot (D : Defs) (q : List OpenQueueEntry_t) (i : Nat)
    (hi : i < D.QUEUELENGTH) :
    openqueue_freePacketBuffer D q (EntryPtr.slot i) =
      (q.modify (openqueue_reset_entry D) i, owerror_t.E_SUCCESS) :=
  freeLoop_slot D i D.QUEUELENGTH 0 q (Nat.zero_le _) (by omega)

/-- Releasing a reference that is no slot of the pool changes nothing and reports failure. -/
theorem freePacketBuffer_other (D : Defs) (q : List OpenQueueEntry_t) (pkt : EntryPtr)
    (hpkt : ∀ i, i < D.QUEUELENGTH → pkt ≠ EntryPtr.slot i) :
    openqueue_freePacketBuffer D q pkt = (q, owerror_t.E_FAIL) :=
  freeLoop_other D pkt D.QUEUELENGTH 0 q (fun k _ hk => hpkt k (by omega))

/-- Resetting a record twice is the same as resetting it once. -/
theorem reset_entry_idem (D : Defs) (e : OpenQueueEntry_t) :
    openqueue_reset_entry D (openqueue_reset_entry D e) = openqueue_reset_entry D e := rfl

/-- Claim C5: releasing a record of the pool (slot `i < QUEUELENGTH`, allocated or free)
returns `E_SUCCESS`; afterwards the record is the reset record: creator and owner
`COMPONENT_NULL`, length 0, payload at offset `127 - IEEE802154_SECURITY_TAG_LEN`,
`l4_protocol` `IANA_UNDEFINED`, the l3 and l2 address types `ADDR_NONE`, frame type
undefined, retries, IE flags and security level 0; every other record is unchanged. -/
theorem release_resets_record (D : Defs) (q : List OpenQueueEntry_t)
    (hlen : q.length = D.QUEUELENGTH) (i : Nat) (hi : i < D.QUEUELENGTH) :
    (openqueue_freePacketBuffer D q (EntryPtr.slot i)).2 = owerror_t.E_SUCCESS ∧
    (∃ e r, q[i]? = some e ∧ (openqueue_freePacketBuffer D q (EntryPtr.slot i)).1[i]? = some r ∧
      r = openqueue_reset_entry D e ∧
      r.creator = D.COMPONENT_NULL ∧ r.owner = D.COMPONENT_NULL ∧ r.length = 0 ∧
      r.payload = 127 - (D.IEEE802154_SECURITY_TAG_LEN : Int) ∧
      r.l4_protocol = D.IANA_UNDEFINED ∧ r.l4_protocol_compressed = false ∧
      r.l3_destinationAdd.type = D.ADDR_NONE ∧ r.l3_sourceAdd.type = D.ADDR_NONE ∧
      r.l2_nextORpreviousHop.type = D.ADDR_NONE ∧
      r.l2_frameType = D.IEEE154_TYPE_UNDEFINED ∧ r.l2_retriesLeft = 0 ∧
      r.l2_IEListPresent = 0 ∧ r.l2_isNegativeACK = 0 ∧ r.l2_payloadIEpresent = 0 ∧
      r.l2_securityLevel = 0) ∧
    (∀ m, m ≠ i → (openqueue_freePacketBuffer D q (EntryPtr.slot i)).1[m]? = q[m]?) ∧
    (openqueue_freePacketBuffer D q (EntryPtr.slot i)).1.length = D.QUEUELENGTH := by
  rw [freePacketBuffer_slot D q i hi]
  have hiq : i < q.length := by omega
  refine ⟨rfl, ⟨q[i], openqueue_reset_entry D q[i], List.getElem?_eq_getElem hiq, ?_, rfl, rfl,
    rfl, rfl, rfl, rfl, rfl, rfl, rfl, rfl, rfl, rfl, rfl, rfl, rfl, rfl⟩, ?_, ?_⟩
  · simp [List.getElem?_modify_eq, List.getElem?_eq_getElem hiq]
  · intro m hm
    exact List.getElem?_modify_ne _ _ (Ne.symm hm)
  · simpa using hlen

/-- Witness for claim C5: releasing slot 2 of the concrete pool holding six records. -/
theorem release_resets_record_witness :
    sixDataPool.length = openwsn.QUEUELENGTH ∧ 2 < openwsn.QUEUELENGTH ∧
    (openqueue_freePacketBuffer openwsn sixDataPool (EntryPtr.slot 2)).2 =
      owerror_t.E_SUCCESS :=
  ⟨by decide, by decide, (release_resets_record openwsn sixDataPool (by decide) 2 (by decide)).1⟩

/-- Claim C6: releasing the same record of the pool twice in a row returns `E_SUCCESS` both
times, the record has owner `COMPONENT_NULL` after each call, and the pool after the second
release equals the pool after the first. -/
theorem release_twice (D : Defs) (q : List OpenQueueEntry_t)
    (hlen : q.length = D.QUEUELENGTH) (i : Nat) (hi : i < D.QUEUELENGTH) :
    (openqueue_freePacketBuffer D q (EntryPtr.slot i)).2 = owerror_t.E_SUCCESS ∧
    (openqueue_freePacketBuffer D (openqueue_freePacketBuffer D q (EntryPtr.slot i)).1
      (EntryPtr.slot i)).2 = owerror_t.E_SUCCESS ∧
    (∃ r, (openqueue_freePacketBuffer D q (EntryPtr.slot i)).1[i]? = some r ∧
      r.owner = D.COMPONENT_NULL) ∧
    (∃ r, (openqueue_freePacketBuffer D (openqueue_freePacketBuffer D q (EntryPtr.slot i)).1
      (EntryPtr.slot i)).1[i]? = some r ∧ r.owner = D.COMPONENT_NULL) ∧
    (openqueue_freePacketBuffer D (openqueue_freePacketBuffer D q (EntryPtr.slot i)).1
      (EntryPtr.slot i)).1 = (openqueue_freePacketBuffer D q (EntryPtr.slot i)).1 := by
  have hiq : i < q.length := by omega
  have hpool : List.modify (openqueue_reset_entry D) i
      (List.modify (openqueue_reset_entry D) i q) = List.modify (openqueue_reset_entry D) i q := by
    apply List.ext_getElem?
    intro m
    by_cases hm : m = i
    · subst hm
      simp only [List.getElem?_modify_eq, Option.map_eq_map, Option.map_map]
      cases q[m]? <;> rfl
    · rw [List.getElem?_modify_ne _ _ (Ne.symm hm)]
  have hget : (List.modify (openqueue_reset_entry D) i q)[i]? =
      some (openqueue_reset_entry D q[i]) := by
    simp [List.getElem?_modify_eq, List.getElem?_eq_getElem hiq]
  rw [freePacketBuffer_slot D q i hi, freePacketBuffer_slot D _ i hi]
  refine ⟨rfl, rfl, ⟨_, hget, rfl⟩, ⟨openqueue_reset_entry D q[i], ?_, rfl⟩, hpool⟩
  show (List.modify (openqueue_reset_entry D) i (List.modify (openqueue_reset_entry D) i q))[i]? =
    some (openqueue_reset_entry D q[i])
  rw [hpool, hget]

/-- Witness for claim C6: releasing slot 2 of the concrete pool twice. -/
theorem release_twice_witness :
    sixDataPool.length = openwsn.QUEUELENGTH ∧ 2 < openwsn.QUEUELENGTH ∧
    (openqueue_freePacketBuffer openwsn
      (openqueue_freePacketBuffer openwsn sixDataPool (EntryPtr.slot 2)).1
      (EntryPtr.slot 2)).1 =
      (openqueue_freePacketBuffer openwsn sixDataPool (EntryPtr.slot 2)).1 :=
  ⟨by decide, by decide, (release_twice openwsn sixDataPool (by decide) 2 (by decide)).2.2.2.2⟩

/-- Claim C7: releasing a reference that is none of the `QUEUELENGTH` records of the pool
returns `E_FAIL` and leaves every record of the pool unchanged. -/
theorem release_foreign_fails (D : Defs) (q : List OpenQueueEntry_t) (pkt : EntryPtr)
    (hpkt : ∀ i, i < D.QUEUELENGTH → pkt ≠ EntryPtr.slot i) :
    (openqueue_freePacketBuffer D q pkt).2 = owerror_t.E_FAIL ∧
    (openqueue_freePacketBuffer D q pkt).1 = q := by
  rw [freePacketBuffer_other D q pkt hpkt]
  exact ⟨rfl, rfl⟩

/-- Witness for claim C7: an address outside the queue, on the concrete pool. -/
theorem release_foreign_fails_witness :
    (∀ i, i < openwsn.QUEUELENGTH → EntryPtr.foreign 7 ≠ EntryPtr.slot i) ∧
    (openqueue_freePacketBuffer openwsn sixDataPool (EntryPtr.foreign 7)).2 =
      owerror_t.E_FAIL ∧
    (openqueue_freePacketBuffer openwsn sixDataPool (EntryPtr.foreign 7)).1 = sixDataPool :=
  ⟨(fun _ _ h => by cases h),
    release_foreign_fails openwsn sixDataPool (EntryPtr.foreign 7) (fun _ _ h => by cases h)⟩

/-! ## Bulk release -/

/-- Claim C8: after `openqueue_removeAllCreatedBy(X)` on a well-formed pool, every record
whose creator was `X` is the reset record (owner and creator `COMPONENT_NULL`, metadata
reset), and every record whose creator was not `X` is unchanged. -/
theorem removeAllCreatedBy_frees_exactly (D : Defs) (q : List OpenQueueEntry_t)
    (hlen : q.length = D.QUEUELENGTH) (X : Nat) :
    (openqueue_removeAllCreatedBy D q X).length = q.length ∧
    ∀ (m : Nat) (e : OpenQueueEntry_t), q[m]? = some e →
      (e.creator = X →
        ∃ r, (openqueue_removeAllCreatedBy D q X)[m]? = some r ∧
          r = openqueue_reset_entry D e ∧
          r.owner = D.COMPONENT_NULL ∧ r.creator = D.COMPONENT_NULL ∧ r.length = 0 ∧
          r.payload = 127 - (D.IEEE802154_SECURITY_TAG_LEN : Int) ∧
          r.l4_protocol = D.IANA_UNDEFINED ∧ r.l4_protocol_compressed = false ∧
          r.l3_destinationAdd.type = D.ADDR_NONE ∧ r.l3_sourceAdd.type = D.ADDR_NONE ∧
          r.l2_nextORpreviousHop.type = D.ADDR_NONE ∧
          r.l2_frameType = D.IEEE154_TYPE_UNDEFINED ∧ r.l2_retriesLeft = 0 ∧
          r.l2_IEListPresent = 0 ∧ r.l2_isNegativeACK = 0 ∧ r.l2_payloadIEpresent = 0 ∧
          r.l2_securityLevel = 0) ∧
      (e.creator ≠ X → (openqueue_removeAllCreatedBy D q X)[m]? = some e) := by
  unfold openqueue_removeAllCreatedBy
  refine ⟨resetLoop_length D _ _ _ _, ?_⟩
  intro m e he
  have hm : m < D.QUEUELENGTH := by
    by_contra hcon
    have : q[m]? = none := by simp; omega
    rw [this] at he; cases he
  rw [resetLoop_getElem?, if_pos (by omega), he]
  constructor
  · intro hX
    refine ⟨openqueue_reset_entry D e, by simp [hX], rfl, rfl, rfl, rfl, rfl, rfl, rfl, rfl,
      rfl, rfl, rfl, rfl, rfl, rfl, rfl, rfl⟩
  · intro hX
    simp [hX]

/-- Witness for claim C8: removing the records of component 20 from the concrete pool. -/
theorem removeAllCreatedBy_frees_exactly_witness :
    sixDataPool.length = openwsn.QUEUELENGTH ∧
    (openqueue_removeAllCreatedBy openwsn sixDataPool 20).length = sixDataPool.length :=
  ⟨by decide, (removeAllCreatedBy_frees_exactly openwsn sixDataPool (by decide) 20).1⟩

/-! ## Acquire followed by release -/

/-- Claim C9 as stated fails: on the concrete build, acquiring from the start-up pool with
priority 3 and releasing the returned record leaves priority 3 in slot 0, where the start-up
pool has priority 0, so the two pools differ. -/
theorem acquire_release_counterexample :
    (openqueue_getFreePacketBuffer_withpriority openwsn true bootPool 20 3).2 =
      EntryPtr.slot 0 ∧
    Option.map OpenQueueEntry_t.priority bootPool[0]? = some 0 ∧
    Option.map OpenQueueEntry_t.priority
      (openqueue_freePacketBuffer openwsn
        (openqueue_getFreePacketBuffer_withpriority openwsn true bootPool 20 3).1
        (openqueue_getFreePacketBuffer_withpriority openwsn true bootPool 20 3).2).1[0]? =
      some 3 ∧
    (openqueue_freePacketBuffer openwsn
        (openqueue_getFreePacketBuffer_withpriority openwsn true bootPool 20 3).1
        (openqueue_getFreePacketBuffer_withpriority openwsn true bootPool 20 3).2).1 ≠
      bootPool := by
  decide

/-- Claim C9, amended: from the freshly initialised pool, an acquire followed by a release of
the returned record gives back the freshly initialised pool in every field of every record
except the priority of the acquired record, which keeps the priority given at acquire; when
the acquire is refused the pool is the freshly initialised pool. -/
theorem acquire_release_keeps_priority (D : Defs) (mem : List OpenQueueEntry_t)
    (hlen : mem.length = D.QUEUELENGTH) (synch : Bool) (creator priority : Nat) :
    ((openqueue_getFreePacketBuffer_withpriority D synch (openqueue_init D mem)
        creator priority).2 = EntryPtr.null →
      (openqueue_freePacketBuffer D
        (openqueue_getFreePacketBuffer_withpriority D synch (openqueue_init D mem)
          creator priority).1
        (openqueue_getFreePacketBuffer_withpriority D synch (openqueue_init D mem)
          creator priority).2).1 = openqueue_init D mem) ∧
    (∀ i, (openqueue_getFreePacketBuffer_withpriority D synch (openqueue_init D mem)
        creator priority).2 = EntryPtr.slot i →
      openqueue_freePacketBuffer D
        (openqueue_getFreePacketBuffer_withpriority D synch (openqueue_init D mem)
          creator priority).1
        (openqueue_getFreePacketBuffer_withpriority D synch (openqueue_init D mem)
          creator priority).2 =
      ((openqueue_init D mem).modify (fun e => { e with priority := priority }) i,
        owerror_t.E_SUCCESS)) := by
  constructor
  · intro h
    rw [h, getFree_withpriority_null_pool D synch _ creator priority h]
    rw [freePacketBuffer_other D _ EntryPtr.null (fun _ _ hc => by cases hc)]
  · intro i h
    obtain ⟨hk, hpool⟩ := getFree_withpriority_slot D synch _ creator priority i h
    obtain ⟨_, hi, _, _⟩ := scanLoop_eq_some hk
    rw [h, hpool, freePacketBuffer_slot D _ i (by omega), openqueue_init_eq_map D mem hlen]
    congr 1
    apply List.ext_getElem?
    intro m
    by_cases hm : m = i
    · subst hm
      simp only [List.getElem?_modify_eq, Option.map_eq_map, Option.map_map, List.getElem?_map]
      cases mem[m]? <;> rfl
    · rw [List.getElem?_modify_ne _ _ (Ne.symm hm), List.getElem?_modify_ne _ _ (Ne.symm hm),
        List.getElem?_modify_ne _ _ (Ne.symm hm)]

/-- Witness for the amended claim C9: the concrete build, zeroed storage, component 20 and
priority 3. -/
theorem acquire_release_keeps_priority_witness :
    (List.replicate 10 zeroEntry).length = openwsn.QUEUELENGTH ∧
    (openqueue_getFreePacketBuffer_withpriority openwsn true
      (openqueue_init openwsn (List.replicate 10 zeroEntry)) 20 3).2 = EntryPtr.slot 0 ∧
    openqueue_freePacketBuffer openwsn
        (openqueue_getFreePacketBuffer_withpriority openwsn true
          (openqueue_init openwsn (List.replicate 10 zeroEntry)) 20 3).1
        (openqueue_getFreePacketBuffer_withpriority openwsn true
          (openqueue_init openwsn (List.replicate 10 zeroEntry)) 20 3).2 =
      ((openqueue_init openwsn (List.replicate 10 zeroEntry)).modify
        (fun e => { e with priority := 3 }) 0, owerror_t.E_SUCCESS) :=
  ⟨by decide, by decide,
    (acquire_release_keeps_priority openwsn (List.replicate 10 zeroEntry) (by decide) true
      20 3).2 0 (by decide)⟩

/-! ## Termination of `openqueue_macGetDataPacket` -/

/-- The second sorting loop has no exit: whatever the step budget, it does not finish. -/
theorem sortLoop_never_ok :
    ∀ (fuel j : Nat) (q r : List OpenQueueEntry_t), sortLoop fuel j q ≠ Except.ok r := by
  intro fuel
  induction fuel with
  | zero => intro j q r h; cases h
  | succ n ih =>
    intro j q r h
    unfold sortLoop at h
    rw [if_pos (Nat.zero_le j)] at h
    cases h1 : swapPriority q 0 j with
    | error f => rw [h1] at h; cases h
    | ok q1 =>
      rw [h1] at h
      cases h2 : siftDownLoop j n 0 q1 with
      | error f => simp only [bind, Except.bind, h2] at h; cases h
      | ok q2 =>
        simp only [bind, Except.bind, h2] at h
        exact ih _ _ _ h

/-- Claim C10 fails on the code: for every step budget, every pool and every neighbor,
`openqueue_macGetDataPacket` does not return (neither a record nor `NULL`): the countdown
loop `for (j = QUEUELENGTH - 1; j >= 0; j--)` over the unsigned `j` never exits.  On the
start-up pool of the concrete build with an anycast neighbor the run stops in the first
pass of that loop, at an index outside the queue. -/
theorem macGetDataPacket_never_returns (D : Defs) (fuel : Nat) (q : List OpenQueueEntry_t)
    (toNeighbor : open_addr_t) (r : List OpenQueueEntry_t × EntryPtr) :
    openqueue_macGetDataPacket D fuel q toNeighbor ≠ Except.ok r ∧
    openqueue_macGetDataPacket openwsn 64 bootPool ⟨openwsn.ADDR_ANYCAST, []⟩ =
      Except.error Fault.outOfBounds := by
  refine ⟨?_, rfl⟩
  intro h
  unfold openqueue_macGetDataPacket at h
  cases h1 : heapifyLoop D fuel 1 q with
  | error f => rw [h1] at h; cases h
  | ok q1 =>
    rw [h1] at h
    cases h2 : sortLoop fuel ((D.QUEUELENGTH + 255) % 256) q1 with
    | error f => simp only [bind, Except.bind, h2] at h; cases h
    | ok q2 => exact sortLoop_never_ok _ _ _ _ h2

/-! ## The two forms of the sorting loops agree -/

theorem runResult_stop (q : List OpenQueueEntry_t) (f : Fault) :
    runResult (q, some f) = Except.error f := rfl

theorem runResult_done (q : List OpenQueueEntry_t) :
    runResult (q, none) = Except.ok q := rfl

/-- A step of the loops in `Except` form and the same step of a run give the same result. -/
theorem bind_eq_stepOr {α : Type} (q : List OpenQueueEntry_t) (x : Except Fault α)
    (k1 : α → Except Fault (List OpenQueueEntry_t))
    (k2 : α → List OpenQueueEntry_t × Option Fault)
    (h : ∀ a, k1 a = runResult (k2 a)) :
    (x >>= k1) = runResult (stepOr q x k2) := by
  cases x with
  | error f => rfl
  | ok a => exact h a

theorem siftUpLoop_eq_run :
    ∀ (fuel c : Nat) (q : List OpenQueueEntry_t),
      siftUpLoop fuel c q = runResult (siftUpRun fuel c q) := by
  intro fuel
  induction fuel with
  | zero => intro c q; rfl
  | succ n ih =>
    intro c q
    unfold siftUpLoop siftUpRun
    refine bind_eq_stepOr _ _ _ _ (fun pr => ?_)
    refine bind_eq_stepOr _ _ _ _ (fun pc => ?_)
    have hk : ∀ q1, (if (c - 1) / 2 % 256 ≠ 0 then siftUpLoop n ((c - 1) / 2 % 256) q1
        else pure q1) = runResult (if (c - 1) / 2 % 256 ≠ 0
          then siftUpRun n ((c - 1) / 2 % 256) q1 else (q1, none)) := by
      intro q1
      split
      · exact ih _ _
      · rfl
    by_cases hlt : pr < pc
    · simp only [if_pos hlt]
      exact bind_eq_stepOr _ _ _ _ hk
    · simp only [if_neg hlt]
      exact bind_eq_stepOr _ _ _ _ hk

theorem heapifyLoop_eq_run (D : Defs) :
    ∀ (fuel i : Nat) (q : List OpenQueueEntry_t),
      heapifyLoop D fuel i q = runResult (heapifyRun D fuel i q) := by
  intro fuel
  induction fuel with
  | zero => intro i q; rfl
  | succ n ih =>
    intro i q
    unfold heapifyLoop heapifyRun
    split
    · rw [siftUpLoop_eq_run]
      rcases hr : siftUpRun n i q with ⟨q1, _ | f⟩
      · simp only [runResult_done, bind, Except.bind]
        exact ih _ _
      · rfl
    · rfl

theorem siftDownLoop_eq_run (j : Nat) :
    ∀ (fuel root : Nat) (q : List OpenQueueEntry_t),
      siftDownLoop j fuel root q = runResult (siftDownRun j fuel root q) := by
  intro fuel
  induction fuel with
  | zero => intro root q; rfl
  | succ n ih =>
    intro root q
    unfold siftDownLoop siftDownRun
    refine bind_eq_stepOr _ _ _ _ (fun pc => ?_)
    refine bind_eq_stepOr _ _ _ _ (fun pc1 => ?_)
    refine bind_eq_stepOr _ _ _ _ (fun pr => ?_)
    refine bind_eq_stepOr _ _ _ _ (fun pc2 => ?_)
    generalize (if pc < pc1 ∧ (((2 * root + 1) % 256 : Nat) : Int) < (j : Int) - 1
      then ((2 * root + 1) % 256 + 1) % 256 else (2 * root + 1) % 256) = c
    have hk : ∀ q1, (if c < j then siftDownLoop j n c q1 else pure q1) =
        runResult (if c < j then siftDownRun j n c q1 else (q1, none)) := by
      intro q1
      split
      · exact ih _ _
      · rfl
    by_cases hlt : pr < pc2 ∧ c < j
    · simp only [if_pos hlt]
      exact bind_eq_stepOr _ _ _ _ hk
    · simp only [if_neg hlt]
      exact bind_eq_stepOr _ _ _ _ hk

theorem sortLoop_eq_run :
    ∀ (fuel j : Nat) (q : List OpenQueueEntry_t),
      sortLoop fuel j q = runResult (sortRun fuel j q) := by
  intro fuel
  induction fuel with
  | zero => intro j q; rfl
  | succ n ih =>
    intro j q
    unfold sortLoop sortRun
    rw [if_pos (Nat.zero_le j), if_pos (Nat.zero_le j)]
    refine bind_eq_stepOr _ _ _ _ (fun q1 => ?_)
    rw [siftDownLoop_eq_run]
    rcases hr : siftDownRun j n 0 q1 with ⟨q2, _ | f⟩
    · simp only [runResult_done, bind, Except.bind]
      exact ih _ _
    · rfl

/-- The function `openqueue_macGetDataPacket` in terms of the run of its sorting loops. -/
theorem macGetDataPacket_eq_run (D : Defs) (fuel : Nat) (q : List OpenQueueEntry_t)
    (toNeighbor : open_addr_t) :
    openqueue_macGetDataPacket D fuel q toNeighbor =
      match sortingRun D fuel q with
      | (q2, none) => Except.ok (q2, macGetDataPacket_select D q2 toNeighbor)
      | (_, some f) => Except.error f := by
  unfold openqueue_macGetDataPacket sortingRun
  rw [heapifyLoop_eq_run]
  rcases hr : heapifyRun D fuel 1 q with ⟨q1, _ | f⟩
  · simp only [runResult_done, bind, Except.bind]
    rw [sortLoop_eq_run]
    rcases hs : sortRun fuel ((D.QUEUELENGTH + 255) % 256) q1 with ⟨q2, _ | f⟩
    · rfl
    · rfl
  · rfl

/-! ## The sorting loops write priorities only -/

theorem writePriority_frame {q q1 : List OpenQueueEntry_t} {i v : Nat}
    (h : writePriority q i v = Except.ok q1) :
    q1.map withoutPriority = q.map withoutPriority := by
  unfold writePriority at h
  cases hq : q[i]? with
  | none => rw [hq] at h; cases h
  | some e =>
    rw [hq] at h
    simp only [Except.ok.injEq] at h
    subst h
    apply List.ext_getElem?
    intro m
    by_cases hm : m = i
    · subst hm
      have hlt : m < q.length := by
        by_contra hcon
        have : q[m]? = none := by simp; omega
        rw [this] at hq; cases hq
      simp only [List.getElem?_map, List.getElem?_set_self hlt, hq, Option.map_some']
      rfl
    · simp only [List.getElem?_map, List.getElem?_set_ne (Ne.symm hm)]

theorem swapPriority_frame {q q1 : List OpenQueueEntry_t} {a b : Nat}
    (h : swapPriority q a b = Except.ok q1) :
    q1.map withoutPriority = q.map withoutPriority := by
  unfold swapPriority at h
  cases h1 : readPriority q a with
  | error f => rw [h1] at h; cases h
  | ok temp =>
    cases h2 : readPriority q b with
    | error f => rw [h1, h2] at h; cases h
    | ok pb =>
      cases h3 : writePriority q a pb with
      | error f => rw [h1, h2] at h; simp only [bind, Except.bind, h3] at h; cases h
      | ok q2 =>
        rw [h1, h2] at h
        simp only [bind, Except.bind, h3] at h
        rw [writePriority_frame h, writePriority_frame h3]

/-- A guarded swap, as both sifting loops do it, writes priorities only. -/
theorem guardedSwap_frame {q q1 : List OpenQueueEntry_t} {a b : Nat} {g : Prop} [Decidable g]
    (h : (if g then swapPriority q a b else pure q) = Except.ok q1) :
    q1.map withoutPriority = q.map withoutPriority := by
  split at h
  · exact swapPriority_frame h
  · cases h; rfl

theorem stepOr_frame {α : Type} (q0 q : List OpenQueueEntry_t) (x : Except Fault α)
    (k : α → List OpenQueueEntry_t × Option Fault)
    (hq : q.map withoutPriority = q0.map withoutPriority)
    (hk : ∀ a, x = Except.ok a → (k a).1.map withoutPriority = q0.map withoutPriority) :
    (stepOr q x k).1.map withoutPriority = q0.map withoutPriority := by
  cases x with
  | error f => exact hq
  | ok a => exact hk a rfl

theorem siftUpRun_frame :
    ∀ (fuel c : Nat) (q : List OpenQueueEntry_t),
      (siftUpRun fuel c q).1.map withoutPriority = q.map withoutPriority := by
  intro fuel
  induction fuel with
  | zero => intro c q; rfl
  | succ n ih =>
    intro c q
    unfold siftUpRun
    refine stepOr_frame q q _ _ rfl (fun pr _ => ?_)
    refine stepOr_frame q q _ _ rfl (fun pc _ => ?_)
    refine stepOr_frame q q _ _ rfl (fun q1 h1 => ?_)
    have hq1 := guardedSwap_frame h1
    split
    · rw [ih, hq1]
    · exact hq1

theorem heapifyRun_frame (D : Defs) :
    ∀ (fuel i : Nat) (q : List OpenQueueEntry_t),
      (heapifyRun D fuel i q).1.map withoutPriority = q.map withoutPriority := by
  intro fuel
  induction fuel with
  | zero => intro i q; rfl
  | succ n ih =>
    intro i q
    unfold heapifyRun
    split
    · have hs := siftUpRun_frame n i q
      rcases hr : siftUpRun n i q with ⟨q1, _ | f⟩
      · rw [hr] at hs
        simp only []
        rw [ih, hs]
      · rw [hr] at hs
        exact hs
    · rfl

theorem siftDownRun_frame (j : Nat) :
    ∀ (fuel root : Nat) (q : List OpenQueueEntry_t),
      (siftDownRun j fuel root q).1.map withoutPriority = q.map withoutPriority := by
  intro fuel
  induction fuel with
  | zero => intro root q; rfl
  | succ n ih =>
    intro root q
    unfold siftDownRun
    refine stepOr_frame q q _ _ rfl (fun pc _ => ?_)
    refine stepOr_frame q q _ _ rfl (fun pc1 _ => ?_)
    refine stepOr_frame q q _ _ rfl (fun pr _ => ?_)
    refine stepOr_frame q q _ _ rfl (fun pc2 _ => ?_)
    refine stepOr_frame q q _ _ rfl (fun q1 h1 => ?_)
    have hq1 := guardedSwap_frame h1
    have hk : ∀ c, (if c < j then siftDownRun j n c q1 else (q1, none)).1.map withoutPriority =
        q.map withoutPriority := by
      intro c
      split
      · rw [ih, hq1]
      · exact hq1
    exact hk _

theorem sortRun_frame :
    ∀ (fuel j : Nat) (q : List OpenQueueEntry_t),
      (sortRun fuel j q).1.map withoutPriority = q.map withoutPriority := by
  intro fuel
  induction fuel with
  | zero => intro j q; rfl
  | succ n ih =>
    intro j q
    unfold sortRun
    rw [if_pos (Nat.zero_le j)]
    refine stepOr_frame q q _ _ rfl (fun q1 h1 => ?_)
    have hq1 := swapPriority_frame h1
    have hs := siftDownRun_frame j n 0 q1
    rcases hr : siftDownRun j n 0 q1 with ⟨q2, _ | f⟩
    · rw [hr] at hs
      simp only []
      rw [ih, hs, hq1]
    · rw [hr] at hs
      simp only []
      rw [hs, hq1]

/-- Whatever way the run of the two sorting loops ends, the pool it leaves agrees with the
pool it started from in every field other than `priority`. -/
theorem sortingRun_frame (D : Defs) (fuel : Nat) (q : List OpenQueueEntry_t) :
    (sortingRun D fuel q).1.map withoutPriority = q.map withoutPriority := by
  unfold sortingRun
  have hh := heapifyRun_frame D fuel 1 q
  rcases hr : heapifyRun D fuel 1 q with ⟨q1, _ | f⟩
  · rw [hr] at hh
    simp only []
    rw [sortRun_frame, hh]
  · rw [hr] at hh
    exact hh

/-- Two pools that agree up to priorities have the same length and agree record by record. -/
theorem frame_getElem? {q1 q : List OpenQueueEntry_t}
    (h : q1.map withoutPriority = q.map withoutPriority) (m : Nat) :
    Option.map withoutPriority q1[m]? = Option.map withoutPriority q[m]? := by
  have := congrArg (fun l => l[m]?) h
  simpa [List.getElem?_map] using this

/-! ## The selection queries -/

/-- What a scan over a whole pool returns: slot `i` exactly when `i` is the lowest index
whose record satisfies `cond`. -/
theorem scanLoop_whole_iff {cond : OpenQueueEntry_t → Bool} {q : List OpenQueueEntry_t}
    (i : Nat) :
    scanLoop cond q 0 q.length = some i ↔
      (∃ e, q[i]? = some e ∧ cond e = true) ∧
        ∀ m, m < i → ∀ e, q[m]? = some e → cond e = false := by
  constructor
  · intro h
    obtain ⟨_, _, h3, h4⟩ := scanLoop_eq_some h
    exact ⟨h3, fun m hm e he => h4 m (Nat.zero_le _) hm e he⟩
  · rintro ⟨⟨e, he, hc⟩, hlow⟩
    have hi : i < q.length := by
      by_contra hcon
      have : q[i]? = none := by simp; omega
      rw [this] at he; cases he
    cases hs : scanLoop cond q 0 q.length with
    | none =>
      have := (scanLoop_eq_none.1 hs) i (Nat.zero_le _) (by omega) e he
      rw [hc] at this; cases this
    | some k =>
      obtain ⟨_, _, ⟨ek, hek, hck⟩, hk4⟩ := scanLoop_eq_some hs
      rcases Nat.lt_trichotomy k i with hlt | heq | hgt
      · have := hlow k hlt ek hek
        rw [hck] at this; cases this
      · rw [heq]
      · have := hk4 i (Nat.zero_le _) hgt e he
        rw [hc] at this; cases this

/-- Claim C17: on a well-formed pool `openqueue_sixtopGetSentPacket` returns the lowest-index
record with owner `COMPONENT_IEEE802154E_TO_SIXTOP` and creator other than
`COMPONENT_IEEE802154E`, `openqueue_sixtopGetReceivedPacket` the lowest-index record with
that owner and creator `COMPONENT_IEEE802154E`; each returns `NULL` exactly when no such
record exists, neither returns any other pointer, and they never return the same record. -/
theorem sixtop_queries (D : Defs) (q : List OpenQueueEntry_t)
    (hlen : q.length = D.QUEUELENGTH) :
    (∀ i, openqueue_sixtopGetSentPacket D q = EntryPtr.slot i ↔
      (∃ e, q[i]? = some e ∧ e.owner = D.COMPONENT_IEEE802154E_TO_SIXTOP ∧
        e.creator ≠ D.COMPONENT_IEEE802154E) ∧
      ∀ m, m < i → ∀ e, q[m]? = some e →
        ¬ (e.owner = D.COMPONENT_IEEE802154E_TO_SIXTOP ∧
          e.creator ≠ D.COMPONENT_IEEE802154E)) ∧
    (openqueue_sixtopGetSentPacket D q = EntryPtr.null ↔
      ∀ e ∈ q, ¬ (e.owner = D.COMPONENT_IEEE802154E_TO_SIXTOP ∧
        e.creator ≠ D.COMPONENT_IEEE802154E)) ∧
    (∀ i, openqueue_sixtopGetReceivedPacket D q = EntryPtr.slot i ↔
      (∃ e, q[i]? = some e ∧ e.owner = D.COMPONENT_IEEE802154E_TO_SIXTOP ∧
        e.creator = D.COMPONENT_IEEE802154E) ∧
      ∀ m, m < i → ∀ e, q[m]? = some e →
        ¬ (e.owner = D.COMPONENT_IEEE802154E_TO_SIXTOP ∧
          e.creator = D.COMPONENT_IEEE802154E)) ∧
    (openqueue_sixtopGetReceivedPacket D q = EntryPtr.null ↔
      ∀ e ∈ q, ¬ (e.owner = D.COMPONENT_IEEE802154E_TO_SIXTOP ∧
        e.creator = D.COMPONENT_IEEE802154E)) ∧
    (∀ a, openqueue_sixtopGetSentPacket D q ≠ EntryPtr.foreign a ∧
      openqueue_sixtopGetReceivedPacket D q ≠ EntryPtr.foreign a) ∧
    (∀ i, openqueue_sixtopGetSentPacket D q = EntryPtr.slot i →
      openqueue_sixtopGetReceivedPacket D q ≠ EntryPtr.slot i) := by
  have hsent : ∀ i, openqueue_sixtopGetSentPacket D q = EntryPtr.slot i ↔
      scanLoop (fun e => e.owner == D.COMPONENT_IEEE802154E_TO_SIXTOP &&
        e.creator != D.COMPONENT_IEEE802154E) q 0 q.length = some i := by
    intro i
    unfold openqueue_sixtopGetSentPacket
    rw [hlen]
    split <;> rename_i h <;> rw [h] <;> simp
  have hrecv : ∀ i, openqueue_sixtopGetReceivedPacket D q = EntryPtr.slot i ↔
      scanLoop (fun e => e.owner == D.COMPONENT_IEEE802154E_TO_SIXTOP &&
        e.creator == D.COMPONENT_IEEE802154E) q 0 q.length = some i := by
    intro i
    unfold openqueue_sixtopGetReceivedPacket
    rw [hlen]
    split <;> rename_i h <;> rw [h] <;> simp
  have hsent0 : openqueue_sixtopGetSentPacket D q = EntryPtr.null ↔
      scanLoop (fun e => e.owner == D.COMPONENT_IEEE802154E_TO_SIXTOP &&
        e.creator != D.COMPONENT_IEEE802154E) q 0 q.length = none := by
    unfold openqueue_sixtopGetSentPacket
    rw [hlen]
    split <;> rename_i h <;> rw [h] <;> simp
  have hrecv0 : openqueue_sixtopGetReceivedPacket D q = EntryPtr.null ↔
      scanLoop (fun e => e.owner == D.COMPONENT_IEEE802154E_TO_SIXTOP &&
        e.creator == D.COMPONENT_IEEE802154E) q 0 q.length = none := by
    unfold openqueue_sixtopGetReceivedPacket
    rw [hlen]
    split <;> rename_i h <;> rw [h] <;> simp
  refine ⟨?_, ?_, ?_, ?_, ?_, ?_⟩
  · intro i
    rw [hsent, scanLoop_whole_iff]
    simp
  · rw [hsent0, scanLoop_none_iff_forall]
    simp
  · intro i
    rw [hrecv, scanLoop_whole_iff]
    simp
  · rw [hrecv0, scanLoop_none_iff_forall]
    simp
  · intro a
    constructor
    · unfold openqueue_sixtopGetSentPacket
      split <;> simp
    · unfold openqueue_sixtopGetReceivedPacket
      split <;> simp
  · intro i h1 h2
    obtain ⟨⟨e, he, hc⟩, _⟩ := ((hsent i).trans (scanLoop_whole_iff i)).1 h1
    obtain ⟨⟨e2, he2, hc2⟩, _⟩ := ((hrecv i).trans (scanLoop_whole_iff i)).1 h2
    rw [he] at he2
    cases he2
    simp only [Bool.and_eq_true, beq_iff_eq, bne_iff_ne, ne_eq] at hc hc2
    exact hc.2 hc2.2

/-- Witness for claim C17: the concrete pool with one received and one sent record. -/
theorem sixtop_queries_witness :
    handoffPool.length = openwsn.QUEUELENGTH ∧
    openqueue_sixtopGetSentPacket openwsn handoffPool = EntryPtr.slot 1 ∧
    openqueue_sixtopGetReceivedPacket openwsn handoffPool = EntryPtr.slot 0 ∧
    openqueue_sixtopGetReceivedPacket openwsn handoffPool ≠ EntryPtr.slot 1 :=
  ⟨by decide, by decide, by decide,
    (sixtop_queries openwsn handoffPool (by decide)).2.2.2.2.2 1 (by decide)⟩

/-! ## The candidate scans of `openqueue_macGetDataPacket` -/

/-- The candidate scans return the first control frame for the neighbor when there is one. -/
theorem select_of_control (D : Defs) (q : List OpenQueueEntry_t) (toNeighbor : open_addr_t)
    (i : Nat)
    (h : scanLoop (fun e => e.owner == D.COMPONENT_SIXTOP_TO_IEEE802154E &&
                           e.creator == D.COMPONENT_SIXTOP_RES &&
                           ((toNeighbor.type == D.ADDR_64B &&
                               D.packetfunctions_sameAddress toNeighbor e.l2_nextORpreviousHop) ||
                             toNeighbor.type == D.ADDR_ANYCAST))
          q 0 D.QUEUELENGTH = some i) :
    macGetDataPacket_select D q toNeighbor = EntryPtr.slot i := by
  unfold macGetDataPacket_select
  rw [h]

/-- Without a control frame and with an `ADDR_64B` neighbor, the candidate scans return the
first ready-to-transmit record whose next hop is the neighbor. -/
theorem select_of_unicast (D : Defs) (q : List OpenQueueEntry_t) (toNeighbor : open_addr_t)
    (h : scanLoop (fun e => e.owner == D.COMPONENT_SIXTOP_TO_IEEE802154E &&
                           e.creator == D.COMPONENT_SIXTOP_RES &&
                           ((toNeighbor.type == D.ADDR_64B &&
                               D.packetfunctions_sameAddress toNeighbor e.l2_nextORpreviousHop) ||
                             toNeighbor.type == D.ADDR_ANYCAST))
          q 0 D.QUEUELENGTH = none)
    (ht : toNeighbor.type = D.ADDR_64B) :
    macGetDataPacket_select D q toNeighbor =
      match scanLoop (fun e => e.owner == D.COMPONENT_SIXTOP_TO_IEEE802154E &&
                               D.packetfunctions_sameAddress toNeighbor e.l2_nextORpreviousHop)
              q 0 D.QUEUELENGTH with
      | some i => EntryPtr.slot i
      | none => EntryPtr.null := by
  unfold macGetDataPacket_select
  rw [h]
  simp only [ht, if_true]

/-- Without a control frame and with an `ADDR_ANYCAST` neighbor, the candidate scans return
the first ready-to-transmit record that is not both created by `COMPONENT_SIXTOP` and
broadcast. -/
theorem select_of_anycast (D : Defs) (q : List OpenQueueEntry_t) (toNeighbor : open_addr_t)
    (h : scanLoop (fun e => e.owner == D.COMPONENT_SIXTOP_TO_IEEE802154E &&
                           e.creator == D.COMPONENT_SIXTOP_RES &&
                           ((toNeighbor.type == D.ADDR_64B &&
                               D.packetfunctions_sameAddress toNeighbor e.l2_nextORpreviousHop) ||
                             toNeighbor.type == D.ADDR_ANYCAST))
          q 0 D.QUEUELENGTH = none)
    (ht : toNeighbor.type ≠ D.ADDR_64B) (ha : toNeighbor.type = D.ADDR_ANYCAST) :
    macGetDataPacket_select D q toNeighbor =
      match scanLoop (fun e => e.owner == D.COMPONENT_SIXTOP_TO_IEEE802154E &&
                               (e.creator != D.COMPONENT_SIXTOP ||
                                 (e.creator == D.COMPONENT_SIXTOP &&
                                   D.packetfunctions_isBroadcastMulticast
                                     e.l2_nextORpreviousHop == false)))
              q 0 D.QUEUELENGTH with
      | some i => EntryPtr.slot i
      | none => EntryPtr.null := by
  unfold macGetDataPacket_select
  rw [h]
  simp only [if_neg ht, if_pos ha]

/-- With a neighbor that is neither `ADDR_64B` nor `ADDR_ANYCAST` the candidate scans
return `NULL`. -/
theorem select_of_other (D : Defs) (q : List OpenQueueEntry_t) (toNeighbor : open_addr_t)
    (ht : toNeighbor.type ≠ D.ADDR_64B) (ha : toNeighbor.type ≠ D.ADDR_ANYCAST) :
    macGetDataPacket_select D q toNeighbor = EntryPtr.null := by
  have hnone : scanLoop (fun e => e.owner == D.COMPONENT_SIXTOP_TO_IEEE802154E &&
                           e.creator == D.COMPONENT_SIXTOP_RES &&
                           ((toNeighbor.type == D.ADDR_64B &&
                               D.packetfunctions_sameAddress toNeighbor e.l2_nextORpreviousHop) ||
                             toNeighbor.type == D.ADDR_ANYCAST))
          q 0 D.QUEUELENGTH = none := by
    rw [scanLoop_eq_none]
    intro m _ _ e _
    simp [ht, ha]
  unfold macGetDataPacket_select
  rw [hnone]
  simp only [if_neg ht, if_neg ha]

/-- The record the candidate scans return is ready to transmit and is a control frame for
the neighbor, or the neighbor is `ADDR_64B` and the next hop, or the neighbor is
`ADDR_ANYCAST` and the record is not both created by `COMPONENT_SIXTOP` and broadcast. -/
theorem select_slot_cases (D : Defs) (q : List OpenQueueEntry_t) (toNeighbor : open_addr_t)
    (i : Nat) (h : macGetDataPacket_select D q toNeighbor = EntryPtr.slot i) :
    ∃ e, q[i]? = some e ∧ e.owner = D.COMPONENT_SIXTOP_TO_IEEE802154E ∧
      (e.creator = D.COMPONENT_SIXTOP_RES ∨
        (toNeighbor.type = D.ADDR_64B ∧
          D.packetfunctions_sameAddress toNeighbor e.l2_nextORpreviousHop = true) ∨
        (toNeighbor.type ≠ D.ADDR_64B ∧ toNeighbor.type = D.ADDR_ANYCAST ∧
          (e.creator ≠ D.COMPONENT_SIXTOP ∨
            D.packetfunctions_isBroadcastMulticast e.l2_nextORpreviousHop = false))) := by
  unfold macGetDataPacket_select at h
  split at h
  · rename_i k hk
    cases h
    obtain ⟨_, _, ⟨e, he, hc⟩, _⟩ := scanLoop_eq_some hk
    simp only [Bool.and_eq_true, beq_iff_eq] at hc
    exact ⟨e, he, hc.1.1, Or.inl hc.1.2⟩
  · split at h
    · rename_i ht
      split at h
      · rename_i k hk
        cases h
        obtain ⟨_, _, ⟨e, he, hc⟩, _⟩ := scanLoop_eq_some hk
        simp only [Bool.and_eq_true, beq_iff_eq] at hc
        exact ⟨e, he, hc.1, Or.inr (Or.inl ⟨ht, hc.2⟩)⟩
      · cases h
    · rename_i ht
      split at h
      · rename_i ha
        split at h
        · rename_i k hk
          cases h
          obtain ⟨_, _, ⟨e, he, hc⟩, _⟩ := scanLoop_eq_some hk
          simp only [Bool.and_eq_true, beq_iff_eq, Bool.or_eq_true, bne_iff_ne, ne_eq] at hc
          refine ⟨e, he, hc.1, Or.inr (Or.inr ⟨ht, ha, ?_⟩)⟩
          rcases hc.2 with h1 | h1
          · exact Or.inl h1
          · exact Or.inr h1.2
        · cases h
      · cases h

/-- For every step budget `openqueue_macGetDataPacket` yields no result: its second sorting
loop has no exit. -/
theorem macGetDataPacket_ne_ok (D : Defs) (fuel : Nat) (q : List OpenQueueEntry_t)
    (toNeighbor : open_addr_t) (r : List OpenQueueEntry_t × EntryPtr) :
    openqueue_macGetDataPacket D fuel q toNeighbor ≠ Except.ok r := by
  intro h
  rw [macGetDataPacket_eq_run] at h
  unfold sortingRun at h
  rcases hr : heapifyRun D fuel 1 q with ⟨q1, _ | f⟩
  · rw [hr] at h
    simp only [] at h
    rcases hs : sortRun fuel ((D.QUEUELENGTH + 255) % 256) q1 with ⟨q2, _ | f⟩
    · have := sortLoop_eq_run fuel ((D.QUEUELENGTH + 255) % 256) q1
      rw [hs] at this
      exact sortLoop_never_ok _ _ _ _ this
    · rw [hs] at h
      cases h
  · rw [hr] at h
    cases h

/-- A scan whose condition does not look at `priority` gives the same result on two pools
that agree in every field other than `priority`. -/
theorem scanLoop_congr {cond : OpenQueueEntry_t → Bool} {q1 q : List OpenQueueEntry_t}
    (hcond : ∀ e, cond e = cond (withoutPriority e))
    (h : q1.map withoutPriority = q.map withoutPriority) :
    ∀ (n i : Nat), scanLoop cond q1 i n = scanLoop cond q i n := by
  intro n
  induction n with
  | zero => intro i; rfl
  | succ n ih =>
    intro i
    unfold scanLoop
    have hi := frame_getElem? h i
    cases h1 : q1[i]? with
    | none =>
      cases h2 : q[i]? with
      | none => exact ih _
      | some e => rw [h1, h2] at hi; cases hi
    | some e1 =>
      cases h2 : q[i]? with
      | none => rw [h1, h2] at hi; cases hi
      | some e =>
        rw [h1, h2] at hi
        simp only [Option.map_some', Option.some.injEq] at hi
        simp only []
        rw [hcond e1, hcond e, hi, ih]

/-- The candidate scans do not look at priorities: on two pools that agree in every field
other than `priority` they return the same pointer. -/
theorem select_congr (D : Defs) {q1 q : List OpenQueueEntry_t} (toNeighbor : open_addr_t)
    (h : q1.map withoutPriority = q.map withoutPriority) :
    macGetDataPacket_select D q1 toNeighbor = macGetDataPacket_select D q toNeighbor := by
  unfold macGetDataPacket_select
  rw [scanLoop_congr ?_ h, scanLoop_congr ?_ h, scanLoop_congr ?_ h]
  all_goals intro e; rfl

/-- After the sorting loops, however their run ends, the candidate scans return what they
return on the pool before the call. -/
theorem select_after_sorting (D : Defs) (fuel : Nat) (q : List OpenQueueEntry_t)
    (toNeighbor : open_addr_t) :
    macGetDataPacket_select D (sortingRun D fuel q).1 toNeighbor =
      macGetDataPacket_select D q toNeighbor :=
  select_congr D toNeighbor (sortingRun_frame D fuel q)

/-! ## Claims about the selection queries -/

/-- Claim C12: no selection query changes the owner, creator or length of a record.  However
the run of the sorting loops of `openqueue_macGetDataPacket` ends, the pool it leaves has the
same number of records with the same owner, creator and length in every slot; the candidate
scans and the three other queries contain no assignment at all. -/
theorem selection_keeps_owner_creator_length (D : Defs) (fuel : Nat)
    (q : List OpenQueueEntry_t) :
    (sortingRun D fuel q).1.map (fun e => (e.owner, e.creator, e.length)) =
      q.map (fun e => (e.owner, e.creator, e.length)) := by
  have h := congrArg (List.map (fun e : OpenQueueEntry_t => (e.owner, e.creator, e.length)))
    (sortingRun_frame D fuel q)
  simpa [List.map_map, Function.comp, withoutPriority] using h

/-- Claim C13 fails on the code through the defect of claim C10: when slot `i` is the
lowest-index control frame for the neighbor, the candidate scans pick slot `i` on the pool
the sorting loops leave, but `openqueue_macGetDataPacket` never returns it, because the
sorting loops never finish. -/
theorem control_frame_selected_never_returned (D : Defs) (q : List OpenQueueEntry_t)
    (hlen : q.length = D.QUEUELENGTH) (toNeighbor : open_addr_t) (i fuel : Nat)
    (hi : ∃ e, q[i]? = some e ∧ e.owner = D.COMPONENT_SIXTOP_TO_IEEE802154E ∧
      e.creator = D.COMPONENT_SIXTOP_RES ∧
      (toNeighbor.type = D.ADDR_ANYCAST ∨
        (toNeighbor.type = D.ADDR_64B ∧
          D.packetfunctions_sameAddress toNeighbor e.l2_nextORpreviousHop = true)))
    (hlow : ∀ m, m < i → ∀ e, q[m]? = some e →
      ¬ (e.owner = D.COMPONENT_SIXTOP_TO_IEEE802154E ∧
        e.creator = D.COMPONENT_SIXTOP_RES ∧
        (toNeighbor.type = D.ADDR_ANYCAST ∨
          (toNeighbor.type = D.ADDR_64B ∧
            D.packetfunctions_sameAddress toNeighbor e.l2_nextORpreviousHop = true)))) :
    macGetDataPacket_select D (sortingRun D fuel q).1 toNeighbor = EntryPtr.slot i ∧
    ∀ r, openqueue_macGetDataPacket D fuel q toNeighbor ≠ Except.ok r := by
  refine ⟨?_, macGetDataPacket_ne_ok D fuel q toNeighbor⟩
  rw [select_after_sorting]
  apply select_of_control
  rw [← hlen, scanLoop_whole_iff]
  obtain ⟨e, he, h1, h2, h3⟩ := hi
  constructor
  · refine ⟨e, he, ?_⟩
    simp only [Bool.and_eq_true, beq_iff_eq, Bool.or_eq_true]
    exact ⟨⟨h1, h2⟩, h3.symm⟩
  · intro m hm e1 he1
    have := hlow m hm e1 he1
    by_contra hcon
    simp only [Bool.not_eq_false, Bool.and_eq_true, beq_iff_eq, Bool.or_eq_true] at hcon
    exact this ⟨hcon.1.1, hcon.1.2, hcon.2.symm⟩

/-- Witness for claim C13: the concrete pool with a data frame in slot 0 and a control frame
in slot 1, both for `neighborA`. -/
theorem control_frame_selected_never_returned_witness :
    controlPool.length = openwsn.QUEUELENGTH ∧
    macGetDataPacket_select openwsn (sortingRun openwsn 64 controlPool).1 neighborA =
      EntryPtr.slot 1 ∧
    openqueue_macGetDataPacket openwsn 64 controlPool neighborA =
      Except.error Fault.outOfBounds :=
  ⟨by decide,
    (control_frame_selected_never_returned openwsn controlPool (by decide) neighborA 1 64
      (by decide) (by decide)).1, rfl⟩

/-- The pointer made from a scan over a whole pool, for a condition `cond` that decides the
property `P`: slot `i` exactly when `i` is the lowest index with `P`, `NULL` exactly when no
record has `P`. -/
theorem scan_pointer_spec (cond : OpenQueueEntry_t → Bool) (P : OpenQueueEntry_t → Prop)
    (hP : ∀ e, cond e = true ↔ P e) (q : List OpenQueueEntry_t) :
    (∀ i, (match scanLoop cond q 0 q.length with
        | some k => EntryPtr.slot k
        | none => EntryPtr.null) = EntryPtr.slot i ↔
      (∃ e, q[i]? = some e ∧ P e) ∧ ∀ m, m < i → ∀ e, q[m]? = some e → ¬ P e) ∧
    ((match scanLoop cond q 0 q.length with
        | some k => EntryPtr.slot k
        | none => EntryPtr.null) = EntryPtr.null ↔ ∀ e ∈ q, ¬ P e) := by
  have hF : ∀ e, cond e = false ↔ ¬ P e := by
    intro e
    rw [← hP e]
    cases cond e <;> simp
  constructor
  · intro i
    have hw := @scanLoop_whole_iff cond q i
    simp only [hP, hF] at hw
    rw [← hw]
    cases scanLoop cond q 0 q.length <;> simp
  · have hn := @scanLoop_none_iff_forall cond q
    simp only [hF] at hn
    rw [← hn]
    cases scanLoop cond q 0 q.length <;> simp


/-- Claim C14 fails on the code through the defect of claim C10.  When no control frame
matches, the candidate scans on the pool the sorting loops leave do what the claim says:
for an `ADDR_64B` neighbor the lowest-index ready-to-transmit record whose next hop is the
neighbor, for an `ADDR_ANYCAST` neighbor the lowest-index ready-to-transmit record that is
not both created by `COMPONENT_SIXTOP` and broadcast, `NULL` when there is none or for
another neighbor type.  But `openqueue_macGetDataPacket` never returns, because the sorting
loops never finish. -/
theorem data_frame_selected_never_returned (D : Defs) (q : List OpenQueueEntry_t)
    (hlen : q.length = D.QUEUELENGTH) (toNeighbor : open_addr_t) (fuel : Nat)
    (hno : ∀ e ∈ q, ¬ (e.owner = D.COMPONENT_SIXTOP_TO_IEEE802154E ∧
        e.creator = D.COMPONENT_SIXTOP_RES ∧
        (toNeighbor.type = D.ADDR_ANYCAST ∨
          (toNeighbor.type = D.ADDR_64B ∧
            D.packetfunctions_sameAddress toNeighbor e.l2_nextORpreviousHop = true)))) :
    (toNeighbor.type = D.ADDR_64B →
      (∀ i, macGetDataPacket_select D (sortingRun D fuel q).1 toNeighbor = EntryPtr.slot i ↔
        (∃ e, q[i]? = some e ∧ e.owner = D.COMPONENT_SIXTOP_TO_IEEE802154E ∧
          D.packetfunctions_sameAddress toNeighbor e.l2_nextORpreviousHop = true) ∧
        ∀ m, m < i → ∀ e, q[m]? = some e →
          ¬ (e.owner = D.COMPONENT_SIXTOP_TO_IEEE802154E ∧
            D.packetfunctions_sameAddress toNeighbor e.l2_nextORpreviousHop = true)) ∧
      (macGetDataPacket_select D (sortingRun D fuel q).1 toNeighbor = EntryPtr.null ↔
        ∀ e ∈ q, ¬ (e.owner = D.COMPONENT_SIXTOP_TO_IEEE802154E ∧
          D.packetfunctions_sameAddress toNeighbor e.l2_nextORpreviousHop = true))) ∧
    (toNeighbor.type = D.ADDR_ANYCAST → toNeighbor.type ≠ D.ADDR_64B →
      (∀ i, macGetDataPacket_select D (sortingRun D fuel q).1 toNeighbor = EntryPtr.slot i ↔
        (∃ e, q[i]? = some e ∧ e.owner = D.COMPONENT_SIXTOP_TO_IEEE802154E ∧
          ¬ (e.creator = D.COMPONENT_SIXTOP ∧
            D.packetfunctions_isBroadcastMulticast e.l2_nextORpreviousHop = true)) ∧
        ∀ m, m < i → ∀ e, q[m]? = some e →
          ¬ (e.owner = D.COMPONENT_SIXTOP_TO_IEEE802154E ∧
            ¬ (e.creator = D.COMPONENT_SIXTOP ∧
              D.packetfunctions_isBroadcastMulticast e.l2_nextORpreviousHop = true))) ∧
      (macGetDataPacket_select D (sortingRun D fuel q).1 toNeighbor = EntryPtr.null ↔
        ∀ e ∈ q, ¬ (e.owner = D.COMPONENT_SIXTOP_TO_IEEE802154E ∧
          ¬ (e.creator = D.COMPONENT_SIXTOP ∧
            D.packetfunctions_isBroadcastMulticast e.l2_nextORpreviousHop = true)))) ∧
    (toNeighbor.type ≠ D.ADDR_64B → toNeighbor.type ≠ D.ADDR_ANYCAST →
      macGetDataPacket_select D (sortingRun D fuel q).1 toNeighbor = EntryPtr.null) ∧
    ∀ r, openqueue_macGetDataPacket D fuel q toNeighbor ≠ Except.ok r := by
  have hctl : scanLoop (fun e => e.owner == D.COMPONENT_SIXTOP_TO_IEEE802154E &&
                           e.creator == D.COMPONENT_SIXTOP_RES &&
                           ((toNeighbor.type == D.ADDR_64B &&
                               D.packetfunctions_sameAddress toNeighbor e.l2_nextORpreviousHop) ||
                             toNeighbor.type == D.ADDR_ANYCAST))
          q 0 D.QUEUELENGTH = none := by
    rw [← hlen, scanLoop_none_iff_forall]
    intro e he
    have := hno e he
    by_contra hcon
    simp only [Bool.not_eq_false, Bool.and_eq_true, beq_iff_eq, Bool.or_eq_true] at hcon
    exact this ⟨hcon.1.1, hcon.1.2, hcon.2.symm⟩
  rw [select_after_sorting]
  refine ⟨?_, ?_, ?_, macGetDataPacket_ne_ok D fuel q toNeighbor⟩
  · intro ht
    rw [select_of_unicast D q toNeighbor hctl ht, ← hlen]
    exact scan_pointer_spec _ _ (fun e => by simp) q
  · intro ha ht
    rw [select_of_anycast D q toNeighbor hctl ht ha, ← hlen]
    refine scan_pointer_spec _ _ (fun e => ?_) q
    simp only [Bool.and_eq_true, beq_iff_eq, Bool.or_eq_true, bne_iff_ne, ne_eq,
      Bool.not_eq_true, not_and]
    constructor
    · rintro ⟨h1, h2 | h2⟩
      · exact ⟨h1, fun hc => absurd hc h2⟩
      · exact ⟨h1, fun _ => h2.2⟩
    · rintro ⟨h1, h2⟩
      refine ⟨h1, ?_⟩
      by_cases hc : e.creator = D.COMPONENT_SIXTOP
      · exact Or.inr ⟨hc, h2 hc⟩
      · exact Or.inl hc
  · intro ht ha
    exact select_of_other D q toNeighbor ht ha

/-- Witness for claim C14: the concrete pool with two data frames for `neighborA`. -/
theorem data_frame_selected_never_returned_witness :
    twoDataPool.length = openwsn.QUEUELENGTH ∧
    macGetDataPacket_select openwsn (sortingRun openwsn 64 twoDataPool).1 neighborA =
      EntryPtr.slot 0 ∧
    openqueue_macGetDataPacket openwsn 64 twoDataPool neighborA =
      Except.error Fault.outOfBounds :=
  ⟨by decide,
    (((data_frame_selected_never_returned openwsn twoDataPool (by decide) neighborA 64
      (by decide)).1 rfl).1 0).2 (by decide), rfl⟩

/-- Claim C15: on a well-formed pool `openqueue_macGetEBPacket` returns the lowest-index
record that is ready to transmit, created by `COMPONENT_SIXTOP` and broadcast, and `NULL`
exactly when no record is all three.  With `COMPONENT_SIXTOP` different from
`COMPONENT_SIXTOP_RES` (and `ADDR_64B` different from `ADDR_ANYCAST`), the record it returns
is not the one the candidate scans of `openqueue_macGetDataPacket` pick for an anycast
neighbor, so it is never a record that function returns. -/
theorem beacon_query (D : Defs) (q : List OpenQueueEntry_t)
    (hlen : q.length = D.QUEUELENGTH)
    (hne : D.COMPONENT_SIXTOP ≠ D.COMPONENT_SIXTOP_RES)
    (h64 : D.ADDR_64B ≠ D.ADDR_ANYCAST) :
    (∀ i, openqueue_macGetEBPacket D q = EntryPtr.slot i ↔
      (∃ e, q[i]? = some e ∧ (e.owner = D.COMPONENT_SIXTOP_TO_IEEE802154E ∧
        e.creator = D.COMPONENT_SIXTOP ∧
        D.packetfunctions_isBroadcastMulticast e.l2_nextORpreviousHop = true)) ∧
      ∀ m, m < i → ∀ e, q[m]? = some e →
        ¬ (e.owner = D.COMPONENT_SIXTOP_TO_IEEE802154E ∧
          e.creator = D.COMPONENT_SIXTOP ∧
          D.packetfunctions_isBroadcastMulticast e.l2_nextORpreviousHop = true)) ∧
    (openqueue_macGetEBPacket D q = EntryPtr.null ↔
      ∀ e ∈ q, ¬ (e.owner = D.COMPONENT_SIXTOP_TO_IEEE802154E ∧
        e.creator = D.COMPONENT_SIXTOP ∧
        D.packetfunctions_isBroadcastMulticast e.l2_nextORpreviousHop = true)) ∧
    (∀ (i : Nat) (toNeighbor : open_addr_t) (fuel : Nat),
      toNeighbor.type = D.ADDR_ANYCAST →
      openqueue_macGetEBPacket D q = EntryPtr.slot i →
      macGetDataPacket_select D (sortingRun D fuel q).1 toNeighbor ≠ EntryPtr.slot i ∧
      ∀ r, openqueue_macGetDataPacket D fuel q toNeighbor = Except.ok r →
        r.2 ≠ EntryPtr.slot i) := by
  have hspec := scan_pointer_spec
    (fun e => e.owner == D.COMPONENT_SIXTOP_TO_IEEE802154E &&
      e.creator == D.COMPONENT_SIXTOP &&
      D.packetfunctions_isBroadcastMulticast e.l2_nextORpreviousHop)
    (fun e => e.owner = D.COMPONENT_SIXTOP_TO_IEEE802154E ∧
      e.creator = D.COMPONENT_SIXTOP ∧
      D.packetfunctions_isBroadcastMulticast e.l2_nextORpreviousHop = true)
    (fun e => by simp [and_assoc]) q
  rw [hlen] at hspec
  refine ⟨hspec.1, hspec.2, ?_⟩
  intro i toNeighbor fuel ha heb
  constructor
  · rw [select_after_sorting]
    intro hsel
    obtain ⟨⟨e, he, _, hcr, hbm⟩, _⟩ := (hspec.1 i).1 heb
    obtain ⟨e2, he2, _, hcases⟩ := select_slot_cases D q toNeighbor i hsel
    rw [he] at he2
    cases he2
    rcases hcases with h | ⟨h, _⟩ | ⟨_, _, h | h⟩
    · exact hne (hcr.symm.trans h)
    · exact h64 (h.symm.trans ha)
    · exact h hcr
    · rw [hbm] at h; cases h
  · intro r hr
    exact absurd hr (macGetDataPacket_ne_ok D fuel q toNeighbor r)

/-- Witness for claim C15: the concrete pool with a beacon in slot 0 and a data frame in
slot 1. -/
theorem beacon_query_witness :
    beaconPool.length = openwsn.QUEUELENGTH ∧
    openwsn.COMPONENT_SIXTOP ≠ openwsn.COMPONENT_SIXTOP_RES ∧
    openwsn.ADDR_64B ≠ openwsn.ADDR_ANYCAST ∧
    openqueue_macGetEBPacket openwsn beaconPool = EntryPtr.slot 0 ∧
    macGetDataPacket_select openwsn beaconPool anycastAddr = EntryPtr.slot 1 ∧
    macGetDataPacket_select openwsn (sortingRun openwsn 64 beaconPool).1 anycastAddr ≠
      EntryPtr.slot 0 :=
  ⟨by decide, by decide, by decide, by decide, by decide,
    ((beacon_query openwsn beaconPool (by decide) (by decide) (by decide)).2.2 0 anycastAddr 64
      rfl (by decide)).1⟩

/-- Claim C16 fails on the code.  In the concrete pool slots 0 and 1 both match the filter
for `neighborA` and slot 1 has the numerically lower priority (1 against 5), yet the
candidate scans pick slot 0, on the pool as given and on the pool the sorting loops leave:
the loops move priority values, not records, and the scans take the first match in storage
order.  And `openqueue_macGetDataPacket` never returns (the defect of claim C10). -/
theorem lowest_priority_not_selected :
    twoDataPool.map (fun e => (e.owner == openwsn.COMPONENT_SIXTOP_TO_IEEE802154E &&
        openwsn.packetfunctions_sameAddress neighborA e.l2_nextORpreviousHop, e.priority)) =
      [(true, 5), (true, 1), (false, 0), (false, 0), (false, 0), (false, 0), (false, 0),
        (false, 0), (false, 0), (false, 0)] ∧
    macGetDataPacket_select openwsn twoDataPool neighborA = EntryPtr.slot 0 ∧
    (∀ fuel, macGetDataPacket_select openwsn (sortingRun openwsn fuel twoDataPool).1
      neighborA = EntryPtr.slot 0) ∧
    (∀ fuel r, openqueue_macGetDataPacket openwsn fuel twoDataPool neighborA ≠ Except.ok r) ∧
    openqueue_macGetDataPacket openwsn 64 twoDataPool neighborA =
      Except.error Fault.outOfBounds := by
  refine ⟨by decide, by decide, ?_, ?_, rfl⟩
  · intro fuel
    rw [select_after_sorting]
    decide
  · intro fuel r
    exact macGetDataPacket_ne_ok openwsn fuel twoDataPool neighborA r

/-! ## The free-record invariant -/

/-- The invariant kept by every function of `openqueue.c` taken alone: all records have
reset metadata, and a record with owner `COMPONENT_NULL` has creator `COMPONENT_NULL`. -/
theorem reachable_records (D : Defs) (hoq : D.COMPONENT_OPENQUEUE ≠ D.COMPONENT_NULL)
    (mem : List OpenQueueEntry_t) (hmem : mem.length = D.QUEUELENGTH)
    (q : List OpenQueueEntry_t) (hq : Reachable D mem q) :
    q.length = D.QUEUELENGTH ∧
    ∀ e ∈ q, metadataReset D e ∧ (e.owner = D.COMPONENT_NULL → e.creator = D.COMPONENT_NULL) := by
  have hreset : ∀ x, metadataReset D (openqueue_reset_entry D x) ∧
      ((openqueue_reset_entry D x).owner = D.COMPONENT_NULL →
        (openqueue_reset_entry D x).creator = D.COMPONENT_NULL) :=
    fun x => ⟨⟨rfl, rfl, rfl, rfl, rfl⟩, fun _ => rfl⟩
  have hacq : ∀ (q : List OpenQueueEntry_t) (synch : Bool) (creator priority : Nat),
      (q.length = D.QUEUELENGTH ∧ ∀ e ∈ q, metadataReset D e ∧
        (e.owner = D.COMPONENT_NULL → e.creator = D.COMPONENT_NULL)) →
      ((openqueue_getFreePacketBuffer_withpriority D synch q creator priority).1.length =
          D.QUEUELENGTH ∧
        ∀ e ∈ (openqueue_getFreePacketBuffer_withpriority D synch q creator priority).1,
          metadataReset D e ∧ (e.owner = D.COMPONENT_NULL → e.creator = D.COMPONENT_NULL)) := by
    intro q synch creator priority ih
    cases hr : (openqueue_getFreePacketBuffer_withpriority D synch q creator priority).2 with
    | null => rw [getFree_withpriority_null_pool D synch q creator priority hr]; exact ih
    | foreign a =>
      rw [getFree_withpriority_ptr] at hr
      split at hr
      · cases hr
      · split at hr
        · cases hr
        · split at hr <;> cases hr
    | slot i =>
      obtain ⟨_, hpool⟩ := getFree_withpriority_slot D synch q creator priority i hr
      rw [hpool]
      refine ⟨by simpa using ih.1, ?_⟩
      intro e he
      obtain ⟨m, hm⟩ := List.mem_iff_getElem?.1 he
      by_cases hmi : m = i
      · subst hmi
        rw [List.getElem?_modify_eq] at hm
        cases hq : q[m]? with
        | none => rw [hq] at hm; cases hm
        | some x =>
          rw [hq] at hm
          simp only [Option.map_eq_map, Option.map_some', Option.some.injEq] at hm
          subst hm
          have hx := (ih.2 x (List.getElem?_mem hq)).1
          exact ⟨hx, fun h => absurd h hoq⟩
      · rw [List.getElem?_modify_ne _ _ (Ne.symm hmi)] at hm
        exact ih.2 e (List.getElem?_mem hm)
  have hloop : ∀ (cond : OpenQueueEntry_t → Bool) (q : List OpenQueueEntry_t),
      (q.length = D.QUEUELENGTH ∧ ∀ e ∈ q, metadataReset D e ∧
        (e.owner = D.COMPONENT_NULL → e.creator = D.COMPONENT_NULL)) →
      ((resetLoop D cond 0 D.QUEUELENGTH q).length = D.QUEUELENGTH ∧
        ∀ e ∈ resetLoop D cond 0 D.QUEUELENGTH q, metadataReset D e ∧
          (e.owner = D.COMPONENT_NULL → e.creator = D.COMPONENT_NULL)) := by
    intro cond q ih
    rw [← ih.1, resetLoop_eq_map]
    refine ⟨by simp, ?_⟩
    intro e he
    obtain ⟨x, hx, rfl⟩ := List.mem_map.1 he
    split
    · exact hreset x
    · exact ih.2 x hx
  induction hq with
  | init =>
    rw [openqueue_init_eq_map D mem hmem]
    refine ⟨by simpa using hmem, ?_⟩
    intro e he
    obtain ⟨x, _, rfl⟩ := List.mem_map.1 he
    exact hreset x
  | getFreePacketBuffer q synch creator _ ih =>
    rw [getFree_eq_withpriority]
    exact hacq q synch creator 8 ih
  | getFreePacketBuffer_withpriority q synch creator priority _ ih =>
    exact hacq q synch creator priority ih
  | freePacketBuffer q pkt _ ih =>
    by_cases hp : ∃ i, i < D.QUEUELENGTH ∧ pkt = EntryPtr.slot i
    · obtain ⟨i, hi, rfl⟩ := hp
      rw [freePacketBuffer_slot D q i hi]
      refine ⟨by simpa using ih.1, ?_⟩
      intro e he
      obtain ⟨m, hm⟩ := List.mem_iff_getElem?.1 he
      by_cases hmi : m = i
      · subst hmi
        rw [List.getElem?_modify_eq] at hm
        cases hq : q[m]? with
        | none => rw [hq] at hm; cases hm
        | some x =>
          rw [hq] at hm
          simp only [Option.map_eq_map, Option.map_some', Option.some.injEq] at hm
          subst hm
          exact hreset x
      · rw [List.getElem?_modify_ne _ _ (Ne.symm hmi)] at hm
        exact ih.2 e (List.getElem?_mem hm)
    · rw [freePacketBuffer_other D q pkt (fun i hi hc => hp ⟨i, hi, hc⟩)]
      exact ih
  | removeAllCreatedBy q creator _ ih => exact hloop _ q ih
  | removeAllOwnedBy q owner _ ih => exact hloop _ q ih
  | macGetDataPacket q fuel _ ih =>
    have hf := sortingRun_frame D fuel q
    have hl : (sortingRun D fuel q).1.length = q.length := by
      have := congrArg List.length hf
      simpa using this
    refine ⟨hl.trans ih.1, ?_⟩
    intro e he
    obtain ⟨m, hm⟩ := List.mem_iff_getElem?.1 he
    have hfm := frame_getElem? hf m
    rw [hm] at hfm
    cases hq : q[m]? with
    | none => rw [hq] at hfm; cases hfm
    | some x =>
      rw [hq] at hfm
      simp only [Option.map_some', Option.some.injEq] at hfm
      have hx := ih.2 x (List.getElem?_mem hq)
      have h1 : e.owner = x.owner :=
        (congrArg OpenQueueEntry_t.owner hfm :
          (withoutPriority e).owner = (withoutPriority x).owner)
      have h2 : e.creator = x.creator :=
        (congrArg OpenQueueEntry_t.creator hfm :
          (withoutPriority e).creator = (withoutPriority x).creator)
      have h3 : e.length = x.length :=
        (congrArg OpenQueueEntry_t.length hfm :
          (withoutPriority e).length = (withoutPriority x).length)
      have h4 : e.payload = x.payload :=
        (congrArg OpenQueueEntry_t.payload hfm :
          (withoutPriority e).payload = (withoutPriority x).payload)
      have h5 : e.l3_destinationAdd = x.l3_destinationAdd :=
        (congrArg OpenQueueEntry_t.l3_destinationAdd hfm :
          (withoutPriority e).l3_destinationAdd = (withoutPriority x).l3_destinationAdd)
      have h6 : e.l3_sourceAdd = x.l3_sourceAdd :=
        (congrArg OpenQueueEntry_t.l3_sourceAdd hfm :
          (withoutPriority e).l3_sourceAdd = (withoutPriority x).l3_sourceAdd)
      have h7 : e.l2_nextORpreviousHop = x.l2_nextORpreviousHop :=
        (congrArg OpenQueueEntry_t.l2_nextORpreviousHop hfm :
          (withoutPriority e).l2_nextORpreviousHop = (withoutPriority x).l2_nextORpreviousHop)
      unfold metadataReset at hx ⊢
      rw [h1, h2, h3, h4, h5, h6, h7]
      exact hx

/-- Claim C18: in every pool reachable from `openqueue_init` (on storage of `QUEUELENGTH`
records, with `COMPONENT_OPENQUEUE` different from `COMPONENT_NULL`) by acquire, release,
the bulk releases and the selection queries, every record with owner `COMPONENT_NULL` has
creator `COMPONENT_NULL`, length 0, the default payload offset and address types
`ADDR_NONE`. -/
theorem free_records_are_reset (D : Defs) (hoq : D.COMPONENT_OPENQUEUE ≠ D.COMPONENT_NULL)
    (mem : List OpenQueueEntry_t) (hmem : mem.length = D.QUEUELENGTH)
    (q : List OpenQueueEntry_t) (hq : Reachable D mem q) :
    ∀ e ∈ q, e.owner = D.COMPONENT_NULL →
      e.creator = D.COMPONENT_NULL ∧ e.length = 0 ∧
      e.payload = 127 - (D.IEEE802154_SECURITY_TAG_LEN : Int) ∧
      e.l3_destinationAdd.type = D.ADDR_NONE ∧ e.l3_sourceAdd.type = D.ADDR_NONE ∧
      e.l2_nextORpreviousHop.type = D.ADDR_NONE := by
  intro e he hown
  obtain ⟨hmeta, hcr⟩ := (reachable_records D hoq mem hmem q hq).2 e he
  exact ⟨hcr hown, hmeta⟩

/-- Witness for claim C18: the concrete build after one acquire and the release of slot 0. -/
theorem free_records_are_reset_witness :
    openwsn.COMPONENT_OPENQUEUE ≠ openwsn.COMPONENT_NULL ∧
    (List.replicate 10 zeroEntry).length = openwsn.QUEUELENGTH ∧
    Reachable openwsn (List.replicate 10 zeroEntry)
      (openqueue_freePacketBuffer openwsn
        (openqueue_getFreePacketBuffer openwsn true
          (openqueue_init openwsn (List.replicate 10 zeroEntry)) 20).1 (EntryPtr.slot 0)).1 ∧
    ∀ e ∈ (openqueue_freePacketBuffer openwsn
        (openqueue_getFreePacketBuffer openwsn true
          (openqueue_init openwsn (List.replicate 10 zeroEntry)) 20).1 (EntryPtr.slot 0)).1,
      e.owner = openwsn.COMPONENT_NULL →
        e.creator = openwsn.COMPONENT_NULL ∧ e.length = 0 ∧
        e.payload = 127 - (openwsn.IEEE802154_SECURITY_TAG_LEN : Int) ∧
        e.l3_destinationAdd.type = openwsn.ADDR_NONE ∧
        e.l3_sourceAdd.type = openwsn.ADDR_NONE ∧
        e.l2_nextORpreviousHop.type = openwsn.ADDR_NONE :=
  ⟨by decide, by decide,
    Reachable.freePacketBuffer _ _ (Reachable.getFreePacketBuffer _ true 20 Reachable.init),
    free_records_are_reset openwsn (by decide) (List.replicate 10 zeroEntry) (by decide) _
      (Reachable.freePacketBuffer _ _ (Reachable.getFreePacketBuffer _ true 20 Reachable.init))⟩

/-! ## The sorting loops on concrete pools -/

/-- The second sorting loop never runs to its exit, whatever the step budget. -/
theorem sortRun_never_done (fuel j : Nat) (q : List OpenQueueEntry_t) :
    (sortRun fuel j q).2 ≠ none := by
  intro h
  have hrun := sortLoop_eq_run fuel j q
  unfold runResult at hrun
  rw [h] at hrun
  exact sortLoop_never_ok _ _ _ _ hrun

/-- The two sorting loops never run to their end, whatever the step budget. -/
theorem sortingRun_never_done (D : Defs) (fuel : Nat) (q : List OpenQueueEntry_t) :
    (sortingRun D fuel q).2 ≠ none := by
  unfold sortingRun
  rcases hr : heapifyRun D fuel 1 q with ⟨q1, _ | f⟩
  · exact sortRun_never_done _ _ _
  · simp

/-- Claim C11 fails on the code: `openqueue_macGetDataPacket` writes to the pool.  On the
concrete pool with the priorities 1 to 10 in storage order, the first sorting loop runs to
its end and leaves the priorities 10, 9, 6, 7, 8, 2, 5, 1, 4, 3; the run of both loops then
stops at an index outside the queue with the priorities 9, 8, 6, 7, 3, 2, 5, 1, 4, 10 in
the pool, which is not the pool before the call. -/
theorem sorting_moves_priorities :
    risingPool.map OpenQueueEntry_t.priority = [1, 2, 3, 4, 5, 6, 7, 8, 9, 10] ∧
    (heapifyRun openwsn 64 1 risingPool).2 = none ∧
    (heapifyRun openwsn 64 1 risingPool).1.map OpenQueueEntry_t.priority =
      [10, 9, 6, 7, 8, 2, 5, 1, 4, 3] ∧
    (sortingRun openwsn 64 risingPool).1.map OpenQueueEntry_t.priority =
      [9, 8, 6, 7, 3, 2, 5, 1, 4, 10] ∧
    (sortingRun openwsn 64 risingPool).1 ≠ risingPool := by
  decide

/-! ## The sorting loops leave the queue array -/

theorem readPriority_of_lt {q : List OpenQueueEntry_t} {i : Nat} (h : i < q.length) :
    ∃ v, readPriority q i = Except.ok v := by
  unfold readPriority
  rw [List.getElem?_eq_getElem h]
  exact ⟨_, rfl⟩

theorem readPriority_of_ge {q : List OpenQueueEntry_t} {i : Nat} (h : q.length ≤ i) :
    readPriority q i = Except.error Fault.outOfBounds := by
  unfold readPriority
  have : q[i]? = none := by simp; omega
  rw [this]

theorem writePriority_of_lt {q : List OpenQueueEntry_t} {i : Nat} (v : Nat)
    (h : i < q.length) :
    ∃ q1, writePriority q i v = Except.ok q1 ∧ q1.length = q.length := by
  unfold writePriority
  rw [List.getElem?_eq_getElem h]
  exact ⟨_, rfl, by simp⟩

/-- A swap of two priorities inside the queue succeeds and keeps the number of records. -/
theorem swapPriority_of_lt {q : List OpenQueueEntry_t} {a b : Nat}
    (ha : a < q.length) (hb : b < q.length) :
    ∃ q1, swapPriority q a b = Except.ok q1 ∧ q1.length = q.length := by
  obtain ⟨temp, h1⟩ := readPriority_of_lt ha
  obtain ⟨pb, h2⟩ := readPriority_of_lt hb
  obtain ⟨q1, h3, hl1⟩ := writePriority_of_lt pb ha
  obtain ⟨q2, h4, hl2⟩ := writePriority_of_lt temp (hl1 ▸ hb : b < q1.length)
  refine ⟨q2, ?_, hl2.trans hl1⟩
  unfold swapPriority
  rw [h1, h2]
  simp only [bind, Except.bind, h3, h4]

theorem guardedSwap_of_lt {q : List OpenQueueEntry_t} {a b : Nat} (g : Prop) [Decidable g]
    (ha : a < q.length) (hb : b < q.length) :
    ∃ q1, (if g then swapPriority q a b else pure q) = Except.ok q1 ∧
      q1.length = q.length := by
  split
  · exact swapPriority_of_lt ha hb
  · exact ⟨q, rfl, rfl⟩

/-- The inner loop of the first sorting loop, entered inside the queue with enough steps,
runs to its exit. -/
theorem siftUpRun_done :
    ∀ (fuel c : Nat) (q : List OpenQueueEntry_t), c < q.length → c + 1 ≤ fuel →
      ∃ q1, siftUpRun fuel c q = (q1, none) ∧ q1.length = q.length := by
  intro fuel
  induction fuel with
  | zero => intro c q _ h; omega
  | succ n ih =>
    intro c q hc hfuel
    have hroot : (c - 1) / 2 % 256 ≤ (c - 1) / 2 := Nat.mod_le _ _
    have hroot2 : (c - 1) / 2 ≤ c := by omega
    obtain ⟨pr, h1⟩ := readPriority_of_lt (q := q) (i := (c - 1) / 2 % 256) (by omega)
    obtain ⟨pc, h2⟩ := readPriority_of_lt hc
    obtain ⟨q1, h3, hl⟩ := guardedSwap_of_lt (q := q) (a := (c - 1) / 2 % 256) (b := c)
      (pr < pc) (by omega) hc
    unfold siftUpRun
    simp only [h1, h2, h3, stepOr]
    split
    · rename_i hne
      have hcpos : 1 ≤ c := by
        by_contra hcon
        have : c = 0 := by omega
        subst this
        simp at hne
      have hlt : (c - 1) / 2 % 256 < c := by omega
      obtain ⟨q2, h4, hl2⟩ := ih ((c - 1) / 2 % 256) q1 (by omega) (by omega)
      exact ⟨q2, h4, hl2.trans hl⟩
    · exact ⟨q1, rfl, hl⟩

/-- The first sorting loop runs to its exit on a pool of `QUEUELENGTH` records, given enough
steps. -/
theorem heapifyRun_done (D : Defs) (hQ : D.QUEUELENGTH ≤ 255) :
    ∀ (fuel i : Nat) (q : List OpenQueueEntry_t), q.length = D.QUEUELENGTH →
      i ≤ D.QUEUELENGTH → 2 * D.QUEUELENGTH + 1 ≤ fuel + i →
      ∃ q1, heapifyRun D fuel i q = (q1, none) ∧ q1.length = D.QUEUELENGTH := by
  intro fuel
  induction fuel with
  | zero => intro i q _ h1 h2; omega
  | succ n ih =>
    intro i q hlen hi hfuel
    unfold heapifyRun
    split
    · rename_i hlt
      obtain ⟨q1, h1, hl⟩ := siftUpRun_done n i q (by omega) (by omega)
      rw [h1]
      simp only []
      rw [Nat.mod_eq_of_lt (by omega : i + 1 < 256)]
      exact ih (i + 1) q1 (hl.trans hlen) (by omega) (by omega)
    · exact ⟨q, rfl, hlen⟩

/-- The inner loop of the second sorting loop, entered inside a queue of at most 128
records with `j` the last index, always reaches a read outside the queue. -/
theorem siftDownRun_outOfBounds (j : Nat) :
    ∀ (fuel root : Nat) (q : List OpenQueueEntry_t), q.length = j + 1 → j + 1 ≤ 128 →
      root < j + 1 → j + 1 ≤ fuel + root →
      (siftDownRun j fuel root q).2 = some Fault.outOfBounds := by
  intro fuel
  induction fuel with
  | zero => intro root q _ _ h1 h2; omega
  | succ n ih =>
    intro root q hlen hL hroot hfuel
    have hc0 : (2 * root + 1) % 256 = 2 * root + 1 := Nat.mod_eq_of_lt (by omega)
    unfold siftDownRun
    simp only [hc0]
    by_cases hin : 2 * root + 2 < j + 1
    · obtain ⟨pc, h1⟩ := readPriority_of_lt (q := q) (i := 2 * root + 1) (by omega)
      obtain ⟨pc1, h2⟩ := readPriority_of_lt (q := q) (i := 2 * root + 1 + 1) (by omega)
      obtain ⟨pr, h3⟩ := readPriority_of_lt (q := q) (i := root) (by omega)
      simp only [h1, h2, h3, stepOr]
      have hk : ∀ c, (c = 2 * root + 1 ∨ (c = 2 * root + 2 ∧ 2 * root + 2 < j)) →
          (stepOr q (readPriority q c) fun pc2 =>
            stepOr q (if pr < pc2 ∧ c < j then swapPriority q root c else pure q) fun q1 =>
              if c < j then siftDownRun j n c q1 else (q1, none)).2 =
            some Fault.outOfBounds := by
        intro c hc
        have hcj : c < j := by omega
        obtain ⟨pc2, h4⟩ := readPriority_of_lt (q := q) (i := c) (by omega)
        obtain ⟨q1, h5, hl⟩ := guardedSwap_of_lt (q := q) (a := root) (b := c)
          (pr < pc2 ∧ c < j) (by omega) (by omega)
        simp only [h4, h5, stepOr, if_pos hcj]
        exact ih c q1 (hl.trans hlen) hL (by omega) (by omega)
      apply hk
      by_cases hcond : pc < pc1 ∧ ((2 * root + 1 : Nat) : Int) < (j : Int) - 1
      · rw [if_pos hcond, Nat.mod_eq_of_lt (by omega)]
        right
        exact ⟨rfl, by omega⟩
      · rw [if_neg hcond]
        left
        rfl
    · by_cases hin2 : 2 * root + 1 < j + 1
      · obtain ⟨pc, h1⟩ := readPriority_of_lt (q := q) (i := 2 * root + 1) (by omega)
        have h2 := readPriority_of_ge (q := q) (i := 2 * root + 1 + 1) (by omega)
        simp only [h1, h2, stepOr]
      · have h1 := readPriority_of_ge (q := q) (i := 2 * root + 1) (by omega)
        simp only [h1, stepOr]

/-- On a pool of `QUEUELENGTH` records, with `QUEUELENGTH` at most 128 and enough steps, the
run of the two sorting loops stops at an index outside the queue. -/
theorem sortingRun_outOfBounds (D : Defs) (hQ : D.QUEUELENGTH ≤ 128)
    (q : List OpenQueueEntry_t) (hlen : q.length = D.QUEUELENGTH) (fuel : Nat)
    (hfuel : 2 * D.QUEUELENGTH + 2 ≤ fuel) :
    (sortingRun D fuel q).2 = some Fault.outOfBounds := by
  obtain ⟨n, rfl⟩ : ∃ n, fuel = n + 1 := ⟨fuel - 1, by omega⟩
  unfold sortingRun
  by_cases h0 : D.QUEUELENGTH = 0
  · have hh : heapifyRun D (n + 1) 1 q = (q, none) := by
      unfold heapifyRun
      rw [if_neg (by omega)]
    rw [hh]
    simp only []
    unfold sortRun
    rw [if_pos (Nat.zero_le _)]
    have hsw : swapPriority q 0 ((D.QUEUELENGTH + 255) % 256) =
        Except.error Fault.outOfBounds := by
      unfold swapPriority
      rw [readPriority_of_ge (by omega)]
      rfl
    simp only [hsw, stepOr]
  · obtain ⟨q1, h1, hl1⟩ := heapifyRun_done D (by omega) (n + 1) 1 q hlen (by omega) (by omega)
    rw [h1]
    simp only []
    have hj : (D.QUEUELENGTH + 255) % 256 = D.QUEUELENGTH - 1 := by omega
    rw [hj]
    unfold sortRun
    rw [if_pos (Nat.zero_le _)]
    obtain ⟨q2, h2, hl2⟩ := swapPriority_of_lt (q := q1) (a := 0) (b := D.QUEUELENGTH - 1)
      (by omega) (by omega)
    simp only [h2, stepOr]
    have hs := siftDownRun_outOfBounds (D.QUEUELENGTH - 1) n 0 q2 (by omega) (by omega)
      (by omega) (by omega)
    rcases hr : siftDownRun (D.QUEUELENGTH - 1) n 0 q2 with ⟨q3, _ | f⟩
    · rw [hr] at hs; cases hs
    · rw [hr] at hs
      simpa using hs

/-- Claim C20 fails on the code: the sorting loops do leave the queue array.  For every build
with `QUEUELENGTH` at most 128, every pool of `QUEUELENGTH` records and every neighbor, a run
with enough steps stops at an index outside the queue, so the out-of-bounds branch is taken
on every call.  On the concrete pool with the priorities 1 to 10 the run stops in the first
pass (`j` = 9) of the second loop with `root` = 4 and `c` = 9: the read of `queue[9]`
succeeds and the read of `queue[c + 1]` = `queue[10]`, done before the guard `c < j-1`, is
outside the queue. -/
theorem sorting_reads_outside_queue (D : Defs) (hQ : D.QUEUELENGTH ≤ 128)
    (q : List OpenQueueEntry_t) (hlen : q.length = D.QUEUELENGTH) (fuel : Nat)
    (hfuel : 2 * D.QUEUELENGTH + 2 ≤ fuel) (toNeighbor : open_addr_t) :
    (sortingRun D fuel q).2 = some Fault.outOfBounds ∧
    openqueue_macGetDataPacket D fuel q toNeighbor = Except.error Fault.outOfBounds ∧
    (sortingRun openwsn 64 risingPool).2 = some Fault.outOfBounds ∧
    readPriority (sortingRun openwsn 64 risingPool).1 9 = Except.ok 10 ∧
    readPriority (sortingRun openwsn 64 risingPool).1 (9 + 1) =
      Except.error Fault.outOfBounds ∧
    siftDownRun 9 1 4 (sortingRun openwsn 64 risingPool).1 =
      ((sortingRun openwsn 64 risingPool).1, some Fault.outOfBounds) := by
  have h := sortingRun_outOfBounds D hQ q hlen fuel hfuel
  refine ⟨h, ?_, by decide, rfl, rfl, by decide⟩
  rw [macGetDataPacket_eq_run]
  rcases hr : sortingRun D fuel q with ⟨q2, _ | f⟩
  · rw [hr] at h; cases h
  · rw [hr] at h
    simp only [Option.some.injEq] at h
    rw [h]

/-- Witness for claim C20: the start-up pool of the concrete build with 64 steps. -/
theorem sorting_reads_outside_queue_witness :
    openwsn.QUEUELENGTH ≤ 128 ∧ bootPool.length = openwsn.QUEUELENGTH ∧
    2 * openwsn.QUEUELENGTH + 2 ≤ 64 ∧
    (sortingRun openwsn 64 bootPool).2 = some Fault.outOfBounds ∧
    openqueue_macGetDataPacket openwsn 64 bootPool anycastAddr =
      Except.error Fault.outOfBounds :=
  ⟨by decide, by decide, by decide,
    (sorting_reads_outside_queue openwsn (by decide) bootPool (by decide) 64 (by decide)
      anycastAddr).1,
    (sorting_reads_outside_queue openwsn (by decide) bootPool (by decide) 64 (by decide)
      anycastAddr).2.1⟩

/-! ## The order the sorting loops produce -/

/-- A read that succeeds delivers the same value in both readings of the loops. -/
theorem peekPriority_of_read (junk : Nat → Nat) {q : List OpenQueueEntry_t} {i v : Nat}
    (h : readPriority q i = Except.ok v) : peekPriority junk q i = v := by
  unfold readPriority at h
  unfold peekPriority
  cases hq : q[i]? with
  | none => rw [hq] at h; cases h
  | some e =>
    rw [hq] at h
    exact Except.ok.inj h

/-- Where the inner loop of the second sorting loop gives a result without reading behind
the array, it gives the same result when such reads deliver `junk`. -/
theorem siftDownPeek_of_loop (junk : Nat → Nat) (j : Nat) :
    ∀ (fuel root : Nat) (q q1 : List OpenQueueEntry_t),
      siftDownLoop j fuel root q = Except.ok q1 →
      siftDownPeek junk j fuel root q = Except.ok q1 := by
  intro fuel
  induction fuel with
  | zero => intro root q q1 h; cases h
  | succ n ih =>
    intro root q q1 h
    unfold siftDownLoop at h
    unfold siftDownPeek
    dsimp only at h ⊢
    cases h1 : readPriority q ((2 * root + 1) % 256) with
    | error f => simp only [h1, bind, Except.bind] at h; cases h
    | ok pc =>
      cases h2 : readPriority q ((2 * root + 1) % 256 + 1) with
      | error f => simp only [h1, h2, bind, Except.bind] at h; cases h
      | ok pc1 =>
        cases h3 : readPriority q root with
        | error f => simp only [h1, h2, h3, bind, Except.bind] at h; cases h
        | ok pr =>
          simp only [h1, h2, h3, bind, Except.bind] at h
          rw [peekPriority_of_read junk h1, peekPriority_of_read junk h2,
            peekPriority_of_read junk h3]
          generalize (if pc < pc1 ∧ (((2 * root + 1) % 256 : Nat) : Int) < (j : Int) - 1
            then ((2 * root + 1) % 256 + 1) % 256 else (2 * root + 1) % 256) = c at h ⊢
          cases h4 : readPriority q c with
          | error f => simp only [h4] at h; cases h
          | ok pc2 =>
            simp only [h4] at h
            rw [peekPriority_of_read junk h4]
            simp only [bind, Except.bind]
            by_cases hcond : pr < pc2 ∧ c < j
            · simp only [if_pos hcond] at h ⊢
              cases h5 : swapPriority q root c with
              | error f => simp only [h5] at h; cases h
              | ok q2 =>
                simp only [h5] at h ⊢
                by_cases hcj : c < j
                · simp only [if_pos hcj] at h ⊢
                  exact ih _ _ _ h
                · simp only [if_neg hcj] at h ⊢
                  exact h
            · simp only [if_neg hcond, pure, Except.pure] at h ⊢
              by_cases hcj : c < j
              · simp only [if_pos hcj] at h ⊢
                exact ih _ _ _ h
              · simp only [if_neg hcj] at h ⊢
                exact h

end OpenQueue
